import Mathlib

/-!
EmptyEpsilon script bridge (`src/script.cpp`): embedding and checked properties

The development embeds the script-facing host functions of `src/script.cpp`
as executable Lean definitions and proves properties about them.

Conventions
* the `string` argument of `luaSectorToXY`, whose bytes matter, is a list of bytes
  (`CString`); elsewhere a string is a Lean `String`, taken to be free of NUL bytes
  where it crosses the C API as a `const char*`;
* a C++ `int` is an `Int` together with explicit range checks against
  `INT_MIN`/`INT_MAX`; arithmetic that leaves the range is undefined behaviour in
  C++ and is reported as a `Fault`;
* a C++ `float` that holds an integral value is an `Int` that is representable in
  IEEE-754 binary32; every float operation rounds its exact result with
  `f32Round` (round to nearest, ties to even, 24-bit significand).
-/

namespace EmptyEpsilon

/-! ## C/C++ scalar model -/

/-- A byte of a C++ `string`. -/
abbrev CChar := Fin 256

/-- A C++ `string`: a sequence of bytes. -/
abbrev CString := List CChar

/-- The bytes (UTF-8) of a Lean string literal, used to write concrete inputs. -/
def cstr (s : String) : CString :=
  (s.data.flatMap String.utf8EncodeChar).map (fun b => b.val)

/-- The value of a `char` after integral promotion. Whether plain `char` is signed
is implementation-defined, so it is a parameter of the model. -/
def charToInt (signedChar : Bool) (c : CChar) : Int :=
  if signedChar && decide (128 ≤ c.val) then (c.val : Int) - 256 else (c.val : Int)

/-- The least value of a 32-bit `int`. -/
def INT_MIN : Int := -2147483648

/-- The greatest value of a 32-bit `int`. -/
def INT_MAX : Int := 2147483647

/-- Undefined behaviour that the arithmetic of `luaSectorToXY` can run into. -/
inductive Fault where
  /-- signed overflow of an `int` expression -/
  | signedOverflow
  /-- conversion of a `float` to `int` whose truncated value does not fit an `int` -/
  | floatToIntOutOfRange
  deriving DecidableEq, Repr

/-- Result of an `int` operation: the value when it fits, a fault otherwise. -/
def checkedInt (v : Int) : Except Fault Int :=
  if INT_MIN ≤ v ∧ v ≤ INT_MAX then .ok v else .error .signedOverflow

/-- Number of low bits that do not fit a 24-bit significand: the least `e` with
`a / 2^e < 2^24`. The bound 104 = 128 - 24 is the exponent range of binary32; the
values rounded here stay below 2^47. -/
def f32Exp : Nat → Nat → Nat
  | 0, _ => 0
  | fuel + 1, a => if a < 16777216 then 0 else f32Exp fuel (a / 2) + 1

/-- Round a natural number to the nearest binary32 value, ties to even. -/
def f32RoundNat (a : Nat) : Nat :=
  let e := f32Exp 104 a
  let q := a / 2 ^ e
  let r := a % 2 ^ e
  if 2 * r < 2 ^ e then q * 2 ^ e
  else if 2 * r = 2 ^ e then (if q % 2 = 0 then q else q + 1) * 2 ^ e
  else (q + 1) * 2 ^ e

/-- Round an integer to the nearest binary32 value (`int` to `float` conversion, and
the rounding step of a float operation whose exact result is an integer). -/
def f32Round (v : Int) : Int :=
  if v < 0 then -((f32RoundNat v.natAbs : Nat) : Int) else ((f32RoundNat v.natAbs : Nat) : Int)

/-- The C++ expression `i * f` for an `int` `i` and an integral `float` `f`: `i` is
converted to `float`, the product is rounded to `float`. -/
def intMulFloat (i : Int) (f : Int) : Int :=
  f32Round (f32Round i * f)

/-- Assignment of an integral `float` to an `int` variable. -/
def floatToInt (v : Int) : Except Fault Int :=
  if INT_MIN ≤ v ∧ v ≤ INT_MAX then .ok v else .error .floatToIntOutOfRange

/-- The function `toupper` in the "C" locale; values outside 'a'..'z' are returned
unchanged. -/
def toupper (c : Int) : Int :=
  if 97 ≤ c ∧ c ≤ 122 then c - 32 else c

/-- The function `isspace` in the "C" locale: space, `\t`, `\n`, `\v`, `\f`, `\r`. -/
def isspace (c : CChar) : Bool :=
  c.val == 32 || (decide (9 ≤ c.val) && decide (c.val ≤ 13))

/-- Decimal digit test. -/
def isdigit (c : CChar) : Bool :=
  decide (48 ≤ c.val) && decide (c.val ≤ 57)

/-- The exceptions `std::stoi` throws. -/
inductive StoiError where
  /-- The exception `std::invalid_argument`: no conversion could be performed -/
  | invalidArgument
  /-- The exception `std::out_of_range`: the value does not fit an `int` -/
  | outOfRange
  deriving DecidableEq, Repr

/-- Value of a run of decimal digits. -/
def digitsValue (ds : List CChar) : Nat :=
  ds.foldl (fun acc d => acc * 10 + (d.val - 48)) 0

/-- Optional sign of a number: `-` gives `true`, `+` and no sign give `false`. -/
def stoiSign : CString → Bool × CString
  | c :: t => if c.val = 45 then (true, t) else if c.val = 43 then (false, t) else (false, c :: t)
  | [] => (false, [])

/-- The function `std::stoi(s)` (base 10): skips leading white space, reads an optional sign and
the longest run of digits, ignores what follows. -/
def stoi (s : CString) : Except StoiError Int :=
  let body := stoiSign (s.dropWhile isspace)
  let ds := body.2.takeWhile isdigit
  if ds.isEmpty then .error .invalidArgument
  else
    let n : Int := if body.1 then -(digitsValue ds : Int) else (digitsValue ds : Int)
    if INT_MIN ≤ n ∧ n ≤ INT_MAX then .ok n else .error .outOfRange

/-! ## `luaSectorToXY` -/

/-- The constant `constexpr float sector_size = 20000;`. -/
def sector_size : Int := 20000

/-- The test `sector[0] >= char('A') && sector[1] >= char('A')` that selects the
two-letter branch. -/
def twoLetter (signedChar : Bool) (c0 c1 : CChar) : Bool :=
  decide (charToInt signedChar c0 ≥ 65) && decide (charToInt signedChar c1 ≥ 65)

/-- The part of the label handed to `stoi`: `sector.substr(2)` in the two-letter
branch, `sector.substr(1)` otherwise. -/
def numericPart (signedChar : Bool) : CString → CString
  | c0 :: c1 :: t => if twoLetter signedChar c0 c1 then t else c1 :: t
  | s => s

/-- The statement `x = (intpart - 5) * sector_size; return glm::vec2(x, y);`. -/
def sectorResult (intpart y : Int) : Except Fault (Int × Int) := do
  let d ← checkedInt (intpart - 5)
  let x ← floatToInt (intMulFloat d sector_size)
  pure (f32Round x, f32Round y)

/-- The function `static glm::vec2 luaSectorToXY(string sector)`. The result is the pair of
(integral) float components, or the undefined behaviour the arithmetic runs into. -/
def luaSectorToXY (signedChar : Bool) (sector : CString) : Except Fault (Int × Int) :=
  match sector with
  | [] => .ok (0, 0)
  | [_] => .ok (0, 0)
  | c0 :: c1 :: rest =>
    if twoLetter signedChar c0 c1 then
      let a1 := charToInt signedChar c0
      let a2 := charToInt signedChar c1
      match stoi rest with
      | .error _ => .ok (0, 0)
      | .ok intpart =>
        if a1 > 97 then do
          let y ← floatToInt (intMulFloat (((122 - a1) * 26) + (122 - a2 + 6)) (-sector_size))
          sectorResult intpart y
        else do
          let y ← floatToInt (intMulFloat (((a1 - 65) * 26) + (a2 - 65 + 21)) sector_size)
          sectorResult intpart y
    else
      let alphaPart := toupper (charToInt signedChar c0)
      match stoi (c1 :: rest) with
      | .error _ => .ok (0, 0)
      | .ok intpart => do
        let y ← floatToInt (intMulFloat (alphaPart - 70) sector_size)
        sectorResult intpart y

deriving instance DecidableEq for Except

/-- The notion "the remainder is a decimal integer" as the specification words it: an
optional sign followed by one or more decimal digits and nothing else. -/
def specDecimalInteger (s : CString) : Bool :=
  let body := (stoiSign s).2
  !body.isEmpty && body.all isdigit


/-! ## Scenario settings and the GM-function registry -/

/-- Modelled from the spec: the member `gameGlobalInfo->scenario_settings` (declared in
`gameGlobalInfo.h`, not part of the sources), which `luaGetScenarioSetting` uses as a
map from setting name to value (`find`, `end`, `operator[]`). It is held as an
association list in which the first binding of a key is the one `find` reaches. -/
abbrev ScenarioSettings := List (String × String)

/-- The lookup `scenario_settings.find(key)`: the stored value, or `none` for `end()`. -/
def ScenarioSettings.find (settings : ScenarioSettings) (key : String) : Option String :=
  settings.lookup key

/-- The function `static string luaGetScenarioSetting(string key)`. -/
def luaGetScenarioSetting (settings : ScenarioSettings) (key : String) : String :=
  match settings.find key with
  | some value => value
  | none => ""

/-- The function `static string luaGetScenarioVariation()`. -/
def luaGetScenarioVariation (settings : ScenarioSettings) : String :=
  match settings.find "variation" with
  | some value => value
  | none => "None"

/-- Modelled from the spec: the entry type of `gameGlobalInfo->gm_callback_functions`
(declared in `gameGlobalInfo.h`, not part of the sources): a label together with a
callback handle; constructing an entry from a label leaves the callback
default-constructed. -/
structure GMScriptCallback (Callback : Type) where
  name : String
  callback : Callback
  deriving DecidableEq, Repr

/-- The call `std::vector::emplace_back(label)`: construct a new entry at the end. -/
def emplace_back {Callback : Type} [Inhabited Callback]
    (v : List (GMScriptCallback Callback)) (label : String) : List (GMScriptCallback Callback) :=
  v ++ [{ name := label, callback := default }]

/-- Apply `f` to `v.back()`, the last element of a vector. -/
def modifyBack {α : Type} (f : α → α) : List α → List α
  | [] => []
  | [x] => [f x]
  | x :: y :: t => x :: modifyBack f (y :: t)

/-- The function
`static void luaAddGMFunction(string label, sp::script::Callback callback)`. -/
def luaAddGMFunction {Callback : Type} [Inhabited Callback]
    (gm_callback_functions : List (GMScriptCallback Callback)) (label : String)
    (callback : Callback) : List (GMScriptCallback Callback) :=
  modifyBack (fun entry => { entry with callback := callback })
    (emplace_back gm_callback_functions label)

/-- The function `static void luaClearGMFunctions()`: `gm_callback_functions.clear()`. -/
def luaClearGMFunctions {Callback : Type}
    (_gm_callback_functions : List (GMScriptCallback Callback)) :
    List (GMScriptCallback Callback) :=
  []

/-! ## Lua interpreter model

The Lua C API is modelled after the Lua 5.3 reference manual, as far as
`luaRequire`, `luaCreateClass` and `luaCreateObjectFunc` use it. Running script
code (`lua_call`, `lua_pcall`, metamethod functions) is a parameter of the model.
Memory exhaustion and garbage collection are not modelled: a table reference is never
reused. -/

/-- Host functions that are stored in Lua values as C closures. -/
inductive CFunction where
  | luaCreateObjectFunc
  | other (id : Nat)
  deriving DecidableEq, Repr

/-- Lua values. A function value carries its first upvalue. -/
inductive LuaValue where
  | nil
  | boolean (b : Bool)
  | number (n : Int)
  | str (s : String)
  | table (ref : Nat)
  | closure (chunk : Nat) (upvalue : LuaValue)
  | cclosure (fn : CFunction) (upvalue : LuaValue)
  deriving DecidableEq, Repr

/-- A table object: its entries and its metatable. -/
structure LuaTable where
  fields : List (LuaValue × LuaValue)
  metatable : Option Nat
  deriving DecidableEq, Repr

/-- Host-side effects of `luaRequire`, in the order they happen. -/
inductive HostEvent where
  /-- the call `getResourceStream(filename)` returned a stream -/
  | streamOpen (filename : String)
  /-- a call of `i18n::load` for the named localization overlay -/
  | i18nLoad (name : String)
  /-- the call `stream->readAll()` -/
  | streamReadAll
  /-- the call `stream->destroy()`, which releases the stream -/
  | streamDestroy
  /-- a call of `luaL_loadbuffer` with the given chunk name (the compile step) -/
  | loadbuffer (chunkname : String)
  /-- a call of `lua_pcall` or `lua_call` on a function value (the execute step) -/
  | call
  /-- an error-raising call: `lua_error`, or an argument error of `luaL_checkstring` -/
  | raise
  deriving DecidableEq, Repr

/-- State of the interpreter as seen by a host function: its stack frame (bottom
first, so index 1 is the head), the table heap (a table reference is a position in
it) and the host effects performed so far. -/
structure LuaState where
  stack : List LuaValue
  heap : List LuaTable
  log : List HostEvent
  deriving DecidableEq, Repr

/-- How a piece of host code ends. -/
inductive Outcome (α : Type) where
  /-- ran to completion with a result -/
  | done (a : α) (st : LuaState)
  /-- a Lua error was raised and propagates out of the host function -/
  | raised (e : LuaValue) (st : LuaState)
  /-- the Lua API was used outside its contract -/
  | violation
  deriving DecidableEq, Repr

/-- Host code: a state transformer that may raise. -/
def LuaM (α : Type) := LuaState → Outcome α

instance : Monad LuaM where
  pure a := fun st => .done a st
  bind m f := fun st =>
    match m st with
    | .done a st1 => f a st1
    | .raised e st1 => .raised e st1
    | .violation => .violation

/-- The parts of the interpreter the model does not fix. -/
structure Interp where
  /-- calling a function value with arguments: results or the error value, and the
  heap it leaves -/
  call : LuaValue → List LuaValue → List LuaTable →
    Except LuaValue (List LuaValue) × List LuaTable
  /-- metatable shared by the values of a non-table type -/
  typeMetatable : LuaValue → Option Nat
  /-- the global environment a freshly loaded chunk gets as its upvalue -/
  globals : LuaValue
  /-- the string a number converts to (`lua_tolstring`) -/
  tostring : Int → String
  /-- error value of `luaL_argerror` for a bad argument -/
  argError : Int → LuaValue → LuaValue
  /-- error value of `luaG_typeerror` for indexing a value that cannot be indexed -/
  typeError : LuaValue → LuaValue

/-- Limit on metamethod chains (`MAXTAGLOOP` of Lua 5.3). -/
def MAXTAGLOOP : Nat := 2000

/-- Position in the stack list of an acceptable stack index (positive from the
bottom, negative from the top). -/
def stackPos (stack : List LuaValue) (idx : Int) : Option Nat :=
  if 0 < idx ∧ idx ≤ stack.length then some (idx - 1).toNat
  else if idx < 0 ∧ -idx ≤ stack.length then some (stack.length + idx).toNat
  else none

/-- Value at an index; an index above the top reads as "none" (`nil` here). -/
def stackGet (stack : List LuaValue) (idx : Int) : LuaValue :=
  match stackPos stack idx with
  | some i => stack.getD i .nil
  | none => .nil

/-- Function values: Lua closures and C closures. -/
def LuaValue.isFunction : LuaValue → Bool
  | .closure _ _ => true
  | .cclosure _ _ => true
  | _ => false

/-- Raw lookup in a table object; absent keys read as `nil`. -/
def LuaTable.rawget (t : LuaTable) (key : LuaValue) : LuaValue :=
  (t.fields.lookup key).getD .nil

/-- Raw store in a table object; storing `nil` removes the key. -/
def LuaTable.rawset (t : LuaTable) (key value : LuaValue) : LuaTable :=
  { t with fields :=
      if value = .nil then t.fields.filter (fun kv => kv.1 != key)
      else (key, value) :: t.fields.filter (fun kv => kv.1 != key) }

/-- Raw lookup through a table reference. -/
def rawget (heap : List LuaTable) (ref : Nat) (key : LuaValue) : LuaValue :=
  match heap[ref]? with
  | some t => t.rawget key
  | none => .nil

/-- Raw store through a table reference. -/
def rawset (heap : List LuaTable) (ref : Nat) (key value : LuaValue) : List LuaTable :=
  match heap[ref]? with
  | some t => heap.set ref (t.rawset key value)
  | none => heap

/-- The metamethod `event` of a value, `none` when there is none. -/
def metamethod (I : Interp) (heap : List LuaTable) (t : LuaValue) (event : String) :
    Option LuaValue :=
  let mt : Option Nat :=
    match t with
    | .table r => heap[r]?.bind (fun o => o.metatable)
    | v => I.typeMetatable v
  match mt with
  | none => none
  | some m => if rawget heap m (.str event) = .nil then none else some (rawget heap m (.str event))

/-- Raise a Lua error from inside the interpreter. -/
def raise {α : Type} (e : LuaValue) : LuaM α := fun st => .raised e st

/-- Call of a function value from inside the interpreter (metamethods): one result. -/
def callTM (I : Interp) (f : LuaValue) (args : List LuaValue) : LuaM LuaValue := fun st =>
  match I.call f args st.heap with
  | (.ok rs, h) => .done (rs.headD .nil) { st with heap := h }
  | (.error e, h) => .raised e { st with heap := h }

/-- The function `luaV_finishget`: indexing that has to consult `__index`. -/
def finishget (I : Interp) : Nat → LuaValue → LuaValue → LuaM LuaValue
  | 0, _, _ => raise (.str "'__index' chain too long; possibly a loop")
  | loop + 1, t, key => fun st =>
    match metamethod I st.heap t "__index" with
    | none =>
      match t with
      | .table _ => .done .nil st
      | v => .raised (I.typeError v) st
    | some tm =>
      if tm.isFunction then callTM I tm [t, key] st
      else
        match tm with
        | .table r =>
          if rawget st.heap r key = .nil then finishget I loop tm key st
          else .done (rawget st.heap r key) st
        | _ => finishget I loop tm key st

/-- The function `luaV_gettable`: the value of `t[key]`, metamethods included. -/
def gettable (I : Interp) (t key : LuaValue) : LuaM LuaValue := fun st =>
  match t with
  | .table r =>
    if rawget st.heap r key = .nil then finishget I MAXTAGLOOP t key st
    else .done (rawget st.heap r key) st
  | _ => finishget I MAXTAGLOOP t key st

/-- Raw store as `luaV_finishset` performs it: a new key must not be `nil`. -/
def rawsetChecked (ref : Nat) (key value : LuaValue) : LuaM Unit := fun st =>
  if key = .nil then .raised (.str "table index is nil") st
  else .done () { st with heap := rawset st.heap ref key value }

/-- The function `luaV_finishset`: assignment that has to consult `__newindex`. -/
def finishset (I : Interp) : Nat → LuaValue → LuaValue → LuaValue → LuaM Unit
  | 0, _, _, _ => raise (.str "'__newindex' chain too long; possibly a loop")
  | loop + 1, t, key, value => fun st =>
    match metamethod I st.heap t "__newindex" with
    | none =>
      match t with
      | .table r => rawsetChecked r key value st
      | v => .raised (I.typeError v) st
    | some tm =>
      if tm.isFunction then
        match callTM I tm [t, key, value] st with
        | .done _ st1 => .done () st1
        | .raised e st1 => .raised e st1
        | .violation => .violation
      else
        match tm with
        | .table r =>
          if rawget st.heap r key = .nil then finishset I loop tm key value st
          else .done () { st with heap := rawset st.heap r key value }
        | _ => finishset I loop tm key value st

/-- The function `luaV_settable`: the assignment `t[key] = value`, metamethods included. -/
def settable (I : Interp) (t key value : LuaValue) : LuaM Unit := fun st =>
  match t with
  | .table r =>
    if rawget st.heap r key = .nil then finishset I MAXTAGLOOP t key value st
    else .done () { st with heap := rawset st.heap r key value }
  | _ => finishset I MAXTAGLOOP t key value st

/-! ### C API -/

/-- The call `lua_gettop(L)`. -/
def lua_gettop : LuaM Int := fun st => .done (st.stack.length : Int) st

/-- Push a value. -/
def lua_push (v : LuaValue) : LuaM Unit := fun st =>
  .done () { st with stack := st.stack ++ [v] }

/-- The call `lua_pushstring(L, s)`. -/
def lua_pushstring (s : String) : LuaM Unit := lua_push (.str s)

/-- The call `lua_pushvalue(L, idx)` for a stack index. -/
def lua_pushvalue (idx : Int) : LuaM Unit := fun st =>
  match stackPos st.stack idx with
  | some i => lua_push (st.stack.getD i .nil) st
  | none => .violation

/-- The call `lua_pop(L, n)`. -/
def lua_pop (n : Nat) : LuaM Unit := fun st =>
  if n ≤ st.stack.length then .done () { st with stack := st.stack.take (st.stack.length - n) }
  else .violation

/-- The call `lua_newtable(L)`: allocate an empty table and push it. -/
def lua_newtable : LuaM Unit := fun st =>
  .done () { st with
    stack := st.stack ++ [.table st.heap.length]
    heap := st.heap ++ [{ fields := [], metatable := none }] }

/-- The call `lua_getfield(L, idx, k)`: push `t[k]` for the value `t` at `idx`. -/
def lua_getfield (I : Interp) (idx : Int) (k : String) : LuaM Unit := fun st =>
  match stackPos st.stack idx with
  | none => .violation
  | some i =>
    match gettable I (st.stack.getD i .nil) (.str k) st with
    | .done v st1 => lua_push v st1
    | .raised e st1 => .raised e st1
    | .violation => .violation

/-- The call `lua_setfield(L, idx, k)`: `t[k] = v` for the value `t` at `idx` and the
value `v` on top of the stack, which is popped. -/
def lua_setfield (I : Interp) (idx : Int) (k : String) : LuaM Unit := fun st =>
  match stackPos st.stack idx, st.stack.getLast? with
  | some i, some v =>
    match settable I (st.stack.getD i .nil) (.str k) v st with
    | .done _ st1 => lua_pop 1 st1
    | .raised e st1 => .raised e st1
    | .violation => .violation
  | _, _ => .violation

/-- The call `lua_setmetatable(L, idx)`: pop a table or `nil` and make it the metatable
of the table at `idx`. -/
def lua_setmetatable (idx : Int) : LuaM Unit := fun st =>
  match stackPos st.stack idx, st.stack.getLast? with
  | some i, some m =>
    match st.stack.getD i .nil, m with
    | .table r, .table mt =>
      match st.heap[r]? with
      | some o => lua_pop 1 { st with heap := st.heap.set r { o with metatable := some mt } }
      | none => .violation
    | .table r, .nil =>
      match st.heap[r]? with
      | some o => lua_pop 1 { st with heap := st.heap.set r { o with metatable := none } }
      | none => .violation
    | _, _ => .violation
  | _, _ => .violation

/-- The call `lua_pushcclosure(L, fn, 1)`: pop one value and push the C closure of `fn`
that has it as upvalue. -/
def lua_pushcclosure (fn : CFunction) : LuaM Unit := fun st =>
  match st.stack.getLast? with
  | some up => .done () { st with stack := st.stack.dropLast ++ [.cclosure fn up] }
  | none => .violation

/-- The test `lua_isfunction(L, idx)`. -/
def lua_isfunction (idx : Int) : LuaM Bool := fun st =>
  .done (stackGet st.stack idx).isFunction st

/-- The call `lua_call(L, nargs, 0)`: call the function below the `nargs` arguments on
top of the stack, discard its results; an error propagates. -/
def lua_call (I : Interp) (nargs : Nat) : LuaM Unit := fun st =>
  if st.stack.length < nargs + 1 then .violation
  else
    let base := st.stack.length - (nargs + 1)
    let f := st.stack.getD base .nil
    let args := st.stack.drop (base + 1)
    let st1 := { st with stack := st.stack.take base, log := st.log ++ [HostEvent.call] }
    match I.call f args st1.heap with
    | (.ok _, h) => .done () { st1 with heap := h }
    | (.error e, h) => .raised e { st1 with heap := h, log := st1.log ++ [HostEvent.raise] }

/-- The call `lua_pcall(L, 0, LUA_MULTRET, 0)`: call the function on top of the stack
without arguments in protected mode. All results are pushed and the status is 0 (`false`), or
the error value is pushed and the status is non-zero (`true`). -/
def lua_pcall (I : Interp) : LuaM Bool := fun st =>
  match st.stack.getLast? with
  | none => .violation
  | some f =>
    let st1 := { st with stack := st.stack.dropLast, log := st.log ++ [HostEvent.call] }
    match I.call f [] st1.heap with
    | (.ok rs, h) => .done false { st1 with stack := st1.stack ++ rs, heap := h }
    | (.error e, h) => .done true { st1 with stack := st1.stack ++ [e], heap := h }

/-- The call `lua_setupvalue(L, -2, 1)`: pop the value on top of the stack into the
first upvalue of the function just below it. A value without upvalues is left alone and
nothing is popped. -/
def lua_setupvalue : LuaM Unit := fun st =>
  match st.stack.getLast?, st.stack.dropLast.getLast? with
  | some v, some (.closure c _) =>
    .done () { st with stack := st.stack.dropLast.dropLast ++ [.closure c v] }
  | some v, some (.cclosure fn _) =>
    .done () { st with stack := st.stack.dropLast.dropLast ++ [.cclosure fn v] }
  | some _, some _ => .done () st
  | _, _ => .violation

/-- The call `lua_error(L)`: raise the value on top of the stack. -/
def lua_error {α : Type} : LuaM α := fun st =>
  match st.stack.getLast? with
  | some e => .raised e { st with stack := st.stack.dropLast, log := st.log ++ [HostEvent.raise] }
  | none => .violation

/-- The string a value converts to under `lua_tolstring`: strings and numbers
convert, nothing else does. -/
def LuaValue.tolstring (I : Interp) : LuaValue → Option String
  | .str s => some s
  | .number n => some (I.tostring n)
  | _ => none

/-- The value `lua_tolstring` leaves in the slot it has read: a number has become its
string, every other value is as it was. -/
def LuaValue.afterTolstring (I : Interp) : LuaValue → LuaValue
  | .number n => .str (I.tostring n)
  | v => v

/-- The call `luaL_checkstring(L, idx)`: the string at `idx`. A number is converted to a
string in place (`lua_tolstring` "also changes the actual value in the stack to a string");
any other value raises an argument error. -/
def luaL_checkstring (I : Interp) (idx : Int) : LuaM String := fun st =>
  match (stackGet st.stack idx).tolstring I, stackPos st.stack idx with
  | some s, some i => .done s { st with stack := st.stack.set i (.str s) }
  | some _, none => .violation
  | none, _ => .raised (I.argError idx (stackGet st.stack idx))
      { st with log := st.log ++ [HostEvent.raise] }

/-! ## `luaCreateObjectFunc` and `luaCreateClass` -/

/-- Lines 84-86 of `luaCreateObjectFunc`: allocate the instance and attach the
closure's upvalue as its metatable. -/
def createObjectAlloc (upvalue : LuaValue) : LuaM Unit := do
  lua_newtable
  lua_push upvalue
  lua_setmetatable (-2)

/-- The function `static int luaCreateObjectFunc(lua_State* L)`; `upvalue` is
`lua_upvalueindex(1)`. The result is the number of returned values. -/
def luaCreateObjectFunc (I : Interp) (upvalue : LuaValue) : LuaM Int := do
  createObjectAlloc upvalue
  lua_getfield I (-1) "__init__"
  if (← lua_isfunction (-1)) then
    lua_pushvalue (-2)
    lua_call I 1
  else
    lua_pop 1
  return 1

/-- The function `static int luaCreateClass(lua_State* L)`. -/
def luaCreateClass (I : Interp) : LuaM Int := do
  lua_newtable
  lua_newtable
  lua_newtable
  lua_pushvalue (-3)
  lua_setfield I (-2) "__index"
  lua_pushcclosure .luaCreateObjectFunc
  lua_setfield I (-2) "__call"
  lua_setmetatable (-2)
  return 1

/-- The arrangement `luaCreateClass` sets up between the class table `c`, its
metatable `m` and the metatable `o` it gives to the instances: `c` has metatable `m`,
`m` and `o` have none, `o.__index` is `c`, and neither `m.__index` nor `o.__newindex`
is set. -/
abbrev IsClass (heap : List LuaTable) (c m o : Nat) : Prop :=
  heap[c]?.map (fun t => t.metatable) = some (some m) ∧
  heap[m]?.map (fun t => t.metatable) = some none ∧
  heap[o]?.map (fun t => t.metatable) = some none ∧
  rawget heap m (.str "__index") = .nil ∧
  rawget heap o (.str "__index") = .table c ∧
  rawget heap o (.str "__newindex") = .nil

/-- The table `i` is an instance of the class whose instance metatable is `o`. -/
abbrev IsInstance (heap : List LuaTable) (o i : Nat) : Prop :=
  heap[i]?.map (fun t => t.metatable) = some (some o)

/-- What a field lookup on an instance of the class `c` yields: the instance's own
entry, or else the entry of the class table. -/
def instanceLookup (heap : List LuaTable) (c i : Nat) (key : LuaValue) : LuaValue :=
  if rawget heap i key = .nil then rawget heap c key else rawget heap i key

/-! ## `luaRequire` -/

/-- The host collaborators of `luaRequire`. -/
structure RequireHost where
  /-- the resolver `getResourceStream(filename)`: the contents `readAll` will deliver,
  `none` when the resolver does not find the file -/
  getResourceStream : String → Option String
  /-- the preference `PreferencesManager::get("language", "en")` -/
  language : String
  /-- the compiler behind `luaL_loadbuffer(L, contents, length, chunkname)`: the
  compiled chunk or the error message -/
  loadbuffer : String → String → Except String Nat

/-- Record a host-side effect. -/
def logEvent (e : HostEvent) : LuaM Unit := fun st =>
  .done () { st with log := st.log ++ [e] }

/-- The call `i18n::load(name)`: loading the overlay is best effort and has no effect
on the interpreter. -/
def i18n_load (name : String) : LuaM Unit := logEvent (.i18nLoad name)

/-- The call `luaL_loadbuffer(L, contents, length, chunkname)`: push the compiled
function and return 0 (`false`), or push the error message and return non-zero
(`true`). A loaded chunk has one upvalue, the global environment. -/
def luaL_loadbuffer (H : RequireHost) (I : Interp) (contents chunkname : String) :
    LuaM Bool := do
  logEvent (.loadbuffer chunkname)
  match H.loadbuffer contents chunkname with
  | .ok chunk =>
    lua_push (.closure chunk I.globals)
    return false
  | .error message =>
    lua_pushstring message
    return true

/-- Lines 22-46 of `luaRequire`: the scope that holds the resource stream. The result
is the value of the local variable `error` at the end of the scope. -/
def requireLoad (H : RequireHost) (I : Interp) (filename : String) : LuaM Bool := do
  match H.getResourceStream filename with
  | none =>
    lua_pushstring ("Require: Script not found: " ++ filename)
    return true
  | some stream =>
    logEvent (.streamOpen filename)
    i18n_load ("locale/" ++ filename.replace ".lua" ("." ++ H.language ++ ".po"))
    logEvent .streamReadAll
    let filecontents := stream
    logEvent .streamDestroy
    if (← luaL_loadbuffer H I filecontents ("@" ++ filename)) then
      let error_string ← luaL_checkstring I (-1)
      lua_pushstring ("require:" ++ error_string)
      return true
    else
      return false

/-- Lines 48-59 of `luaRequire`: run the chunk unless an error is pending. -/
def requireRun (I : Interp) (upvalue : LuaValue) (error : Bool) : LuaM Bool := do
  if !error then
    lua_push upvalue
    lua_setupvalue
    if (← lua_pcall I) then
      let error_string ← luaL_checkstring I (-1)
      lua_pushstring ("require:" ++ error_string)
      return true
    else
      return false
  else
    return error

/-- The function `static int luaRequire(lua_State* L)`; `upvalue` is
`lua_upvalueindex(1)`, the environment the function was registered with. -/
def luaRequire (H : RequireHost) (I : Interp) (upvalue : LuaValue) : LuaM Int := do
  let old_top ← lua_gettop
  let filename ← luaL_checkstring I 1
  let error ← requireLoad H I filename
  let error ← requireRun I upvalue error
  if error then
    lua_error
  else
    return (← lua_gettop) - old_top

/-- The result of a piece of host code that ran to completion. -/
def Outcome.result? {α : Type} : Outcome α → Option α
  | .done a _ => some a
  | _ => none

/-- The events of the scope that holds the resource stream, when the file is found. -/
def loadEvents (H : RequireHost) (filename : String) : List HostEvent :=
  [.streamOpen filename,
   .i18nLoad ("locale/" ++ filename.replace ".lua" ("." ++ H.language ++ ".po")),
   .streamReadAll, .streamDestroy, .loadbuffer ("@" ++ filename)]

/-- The final state of a piece of host code, whether it returned or raised. -/
def Outcome.state? {α : Type} : Outcome α → Option LuaState
  | .done _ st => some st
  | .raised _ st => some st
  | .violation => none

/-- The interpreter of the concrete examples: every call returns the two values
"exports" and `true` and leaves the heap alone; numbers print in decimal. -/
def exampleInterp : Interp where
  call := fun _ _ h => (.ok [.str "exports", .boolean true], h)
  typeMetatable := fun _ => none
  globals := .nil
  tostring := fun n => toString n
  argError := fun _ _ => .str "bad argument"
  typeError := fun _ => .str "attempt to index a value"

/-- The host of the concrete examples: the resolver finds "module.lua" and "5" (both
empty files) and nothing else; every source compiles to chunk 0. -/
def exampleHost : RequireHost where
  getResourceStream := fun f => if f = "module.lua" ∨ f = "5" then some "" else none
  language := "en"
  loadbuffer := fun _ _ => .ok 0

/-- The heap of the concrete examples: the three tables `luaCreateClass` allocates on
an empty heap (class table 0, its metatable 1, the instance metatable 2) followed by
two instances (tables 3 and 4) as `luaCreateObjectFunc` allocates them. -/
def exampleClassHeap : List LuaTable :=
  [{ fields := [], metatable := some 1 },
   { fields := [(.str "__call", .cclosure .luaCreateObjectFunc (.table 2))], metatable := none },
   { fields := [(.str "__index", .table 0)], metatable := none },
   { fields := [], metatable := some 2 },
   { fields := [], metatable := some 2 }]

/-! ## Facts about binary32 rounding -/

theorem f32Exp_dvd (fuel : Nat) : ∀ (a c k : Nat), c < 16777216 → a = c * 2 ^ k →
    2 ^ f32Exp fuel a ∣ a := by
  induction fuel with
  | zero => intro a c k _ _; simp [f32Exp]
  | succ fuel ih =>
    intro a c k hc ha
    unfold f32Exp
    split
    · simp
    · rename_i hlt
      cases k with
      | zero => simp at ha; omega
      | succ k =>
        have h2 : a / 2 = c * 2 ^ k := by
          rw [ha, pow_succ, ← Nat.mul_assoc]; simp
        have hd := ih (a / 2) c k hc h2
        have ha2 : a = 2 * (a / 2) := by
          rw [h2, ha, pow_succ]; ring
        rw [pow_succ, ha2, Nat.mul_comm]
        simpa using Nat.mul_dvd_mul_left 2 hd

theorem f32Exp_le (fuel : Nat) : ∀ (a k : Nat), a < 16777216 * 2 ^ k → f32Exp fuel a ≤ k := by
  induction fuel with
  | zero => intro a k _; simp [f32Exp]
  | succ fuel ih =>
    intro a k ha
    unfold f32Exp
    split
    · omega
    · rename_i hlt
      cases k with
      | zero => simp at ha; omega
      | succ k =>
        have : a / 2 < 16777216 * 2 ^ k := by
          rw [pow_succ] at ha; omega
        have := ih (a / 2) k this
        omega

theorem f32RoundNat_exact (a c k : Nat) (hc : c < 16777216) (ha : a = c * 2 ^ k) :
    f32RoundNat a = a := by
  have hd := f32Exp_dvd 104 a c k hc ha
  unfold f32RoundNat
  simp only
  have hr : a % 2 ^ f32Exp 104 a = 0 := Nat.mod_eq_zero_of_dvd hd
  have hpos : 0 < 2 ^ f32Exp 104 a := Nat.pos_pow_of_pos _ (by decide)
  rw [hr]
  simp only [Nat.mul_zero, hpos, if_true]
  exact Nat.div_mul_cancel hd

theorem f32RoundNat_le (a k : Nat) (ha : a < 16777216 * 2 ^ k) :
    f32RoundNat a ≤ a + 2 ^ k := by
  have he := f32Exp_le 104 a k ha
  have hpow : 2 ^ f32Exp 104 a ≤ 2 ^ k := Nat.pow_le_pow_right (by decide) he
  have hq : a / 2 ^ f32Exp 104 a * 2 ^ f32Exp 104 a ≤ a := Nat.div_mul_le_self _ _
  unfold f32RoundNat
  simp only
  split
  · omega
  · split
    · split
      · omega
      · rw [Nat.add_mul]; omega
    · rw [Nat.add_mul]; omega

theorem f32Round_exact (v c : Int) (k : Nat) (hc : c.natAbs < 16777216) (hv : v = c * 2 ^ k) :
    f32Round v = v := by
  have hn : v.natAbs = c.natAbs * 2 ^ k := by
    rw [hv, Int.natAbs_mul, Int.natAbs_pow]; rfl
  have := f32RoundNat_exact v.natAbs c.natAbs k hc hn
  unfold f32Round
  rw [this]
  split <;> omega

theorem f32Round_small (v : Int) (h : v.natAbs < 16777216) : f32Round v = v :=
  f32Round_exact v v 0 h (by simp)

/-- Multiples of the sector size up to 26843 cells are exact in binary32. -/
theorem f32Round_cells (i : Int) (h : i.natAbs ≤ 26843) :
    f32Round (i * 20000) = i * 20000 := by
  apply f32Round_exact (i * 20000) (i * 625) 5
  · rw [Int.natAbs_mul]; simp; omega
  · ring

theorem intMulFloat_pos (i : Int) (h : i.natAbs ≤ 26843) :
    intMulFloat i sector_size = i * 20000 := by
  unfold intMulFloat sector_size
  rw [f32Round_small i (by omega), f32Round_cells i h]

theorem intMulFloat_neg (i : Int) (h : i.natAbs ≤ 26843) :
    intMulFloat i (-sector_size) = -(i * 20000) := by
  unfold intMulFloat sector_size
  rw [f32Round_small i (by omega)]
  have : i * -20000 = (-i) * 20000 := by ring
  rw [this, f32Round_cells (-i) (by simpa using h)]
  ring

theorem f32Exp_quot (fuel : Nat) : ∀ a : Nat, a < 16777216 * 2 ^ fuel →
    a / 2 ^ f32Exp fuel a < 16777216 := by
  induction fuel with
  | zero => intro a ha; simpa [f32Exp] using ha
  | succ fuel ih =>
    intro a ha
    unfold f32Exp
    split
    · simpa using ‹a < 16777216›
    · have h2 : a / 2 < 16777216 * 2 ^ fuel := by
        rw [pow_succ] at ha; omega
      have := ih (a / 2) h2
      rw [pow_succ, Nat.mul_comm, ← Nat.div_div_eq_div_mul]
      exact this

theorem f32RoundNat_idem (a : Nat) (ha : a < 16777216 * 2 ^ 104) :
    f32RoundNat (f32RoundNat a) = f32RoundNat a := by
  have hq := f32Exp_quot 104 a ha
  have key : ∀ q : Nat, q ≤ 16777216 → ∀ e : Nat, f32RoundNat (q * 2 ^ e) = q * 2 ^ e := by
    intro q hq e
    by_cases h : q < 16777216
    · exact f32RoundNat_exact _ q e h rfl
    · have : q = 16777216 := by omega
      subst this
      apply f32RoundNat_exact _ 1 (24 + e) (by decide)
      rw [pow_add]; norm_num
  unfold f32RoundNat
  simp only
  split
  · exact key _ (by omega) _
  · split
    · split
      · exact key _ (by omega) _
      · exact key _ (by omega) _
    · exact key _ (by omega) _

theorem f32Round_idem (v : Int) (hv : v.natAbs < 16777216 * 2 ^ 104) :
    f32Round (f32Round v) = f32Round v := by
  have h := f32RoundNat_idem v.natAbs hv
  unfold f32Round
  by_cases hneg : v < 0
  · simp only [hneg, if_true]
    by_cases hz : f32RoundNat v.natAbs = 0
    · simp only [hz]; decide
    · have : -((f32RoundNat v.natAbs : Nat) : Int) < 0 := by omega
      simp only [this, if_true, Int.natAbs_neg, Int.natAbs_ofNat, h]
  · simp only [hneg, if_false]
    have : ¬ (((f32RoundNat v.natAbs : Nat) : Int) < 0) := by omega
    simp only [this, if_false, Int.natAbs_ofNat, h]

theorem f32Round_cells_ext (i : Int) (h : i.natAbs ≤ 26844) :
    f32Round (i * 20000) = i * 20000 := by
  by_cases h1 : i.natAbs ≤ 26843
  · exact f32Round_cells i h1
  · have : i = 26844 ∨ i = -26844 := by omega
    rcases this with rfl | rfl <;> decide

theorem intMulFloat_ext (i : Int) (h : i.natAbs ≤ 26844) :
    intMulFloat i sector_size = i * 20000 := by
  unfold intMulFloat sector_size
  rw [f32Round_small i (by omega), f32Round_cells_ext i h]

/-- Rounding never moves a value past a representable bound: up to 107374 cells the
rounded product still fits an `int`. -/
theorem f32Round_range (i : Int) (h : i.natAbs ≤ 107374) :
    INT_MIN ≤ f32Round (i * 20000) ∧ f32Round (i * 20000) ≤ INT_MAX := by
  have hn : (i * 20000).natAbs = i.natAbs * 20000 := by
    rw [Int.natAbs_mul]; rfl
  have hlt : (i * 20000).natAbs < 16777216 * 2 ^ 7 := by
    rw [hn]; norm_num; omega
  have := f32RoundNat_le (i * 20000).natAbs 7 hlt
  rw [hn] at this
  norm_num at this
  unfold f32Round INT_MIN INT_MAX
  rw [hn]
  split <;> omega

theorem floatToInt_cells (k : Int) (h : k.natAbs ≤ 26843) :
    floatToInt (intMulFloat k sector_size) = .ok (k * 20000) := by
  rw [intMulFloat_pos k h]
  unfold floatToInt INT_MIN INT_MAX
  rw [if_pos]
  omega

theorem floatToInt_cells_neg (k : Int) (h : k.natAbs ≤ 26843) :
    floatToInt (intMulFloat k (-sector_size)) = .ok (-(k * 20000)) := by
  rw [intMulFloat_neg k h]
  unfold floatToInt INT_MIN INT_MAX
  rw [if_pos]
  omega

theorem sectorResult_exact (n k : Int) (hn : (n - 5).natAbs ≤ 26844) (hk : k.natAbs ≤ 26843) :
    sectorResult n (k * 20000) = .ok ((n - 5) * 20000, k * 20000) := by
  unfold sectorResult checkedInt
  have h1 : INT_MIN ≤ n - 5 ∧ n - 5 ≤ INT_MAX := by
    unfold INT_MIN INT_MAX; omega
  rw [if_pos h1]
  simp only [bind, Except.bind]
  rw [intMulFloat_ext _ hn]
  unfold floatToInt
  have h2 : INT_MIN ≤ (n - 5) * 20000 ∧ (n - 5) * 20000 ≤ INT_MAX := by
    unfold INT_MIN INT_MAX; omega
  rw [if_pos h2]
  simp only [pure, Except.pure]
  rw [f32Round_cells_ext _ hn, f32Round_cells _ hk]

theorem sectorResult_ok (n k : Int) (hn : (n - 5).natAbs ≤ 107374) (hk : k.natAbs ≤ 26843) :
    sectorResult n (k * 20000) = .ok (f32Round ((n - 5) * 20000), k * 20000) := by
  unfold sectorResult checkedInt
  have h1 : INT_MIN ≤ n - 5 ∧ n - 5 ≤ INT_MAX := by
    unfold INT_MIN INT_MAX; omega
  rw [if_pos h1]
  simp only [bind, Except.bind]
  unfold intMulFloat sector_size
  rw [f32Round_small (n - 5) (by omega)]
  unfold floatToInt
  rw [if_pos (f32Round_range _ hn)]
  simp only [pure, Except.pure]
  rw [f32Round_cells _ hk, f32Round_idem]
  rw [Int.natAbs_mul]
  have : (20000 : Int).natAbs = 20000 := rfl
  rw [this]
  have : (2:Nat) ^ 104 ≥ 1 := Nat.one_le_two_pow
  omega

theorem f32Exp_ge (fuel : Nat) : ∀ (a k : Nat), k < fuel → 16777216 * 2 ^ k ≤ a →
    k + 1 ≤ f32Exp fuel a := by
  induction fuel with
  | zero => intro a k hk _; omega
  | succ fuel ih =>
    intro a k hk ha
    have hpos : 1 ≤ 2 ^ k := Nat.one_le_two_pow
    unfold f32Exp
    have hge : ¬ a < 16777216 := by
      have : 16777216 * 1 ≤ 16777216 * 2 ^ k := Nat.mul_le_mul_left _ hpos
      omega
    rw [if_neg hge]
    cases k with
    | zero => omega
    | succ k =>
      have h2 : 16777216 * 2 ^ k ≤ a / 2 := by
        rw [pow_succ] at ha; omega
      have := ih (a / 2) k (by omega) h2
      omega

theorem f32Exp_quot_ge (fuel : Nat) : ∀ a : Nat, 1 ≤ f32Exp fuel a →
    8388608 ≤ a / 2 ^ f32Exp fuel a := by
  induction fuel with
  | zero => intro a h; simp [f32Exp] at h
  | succ fuel ih =>
    intro a h
    unfold f32Exp at h ⊢
    by_cases hlt : a < 16777216
    · rw [if_pos hlt] at h; omega
    · rw [if_neg hlt]
      rw [pow_succ, Nat.mul_comm, ← Nat.div_div_eq_div_mul]
      by_cases h0 : 1 ≤ f32Exp fuel (a / 2)
      · exact ih (a / 2) h0
      · have : f32Exp fuel (a / 2) = 0 := by omega
        rw [this]
        simp
        omega

theorem f32RoundNat_ge (a : Nat) : a / 2 ^ f32Exp 104 a * 2 ^ f32Exp 104 a ≤ f32RoundNat a := by
  unfold f32RoundNat
  simp only
  split
  · exact Nat.le_refl _
  · split
    · split
      · exact Nat.le_refl _
      · exact Nat.mul_le_mul_right _ (Nat.le_succ _)
    · exact Nat.mul_le_mul_right _ (Nat.le_succ _)

/-- Rounding keeps a value of at least 2^24 at or above 2^24. -/
theorem f32RoundNat_large (a : Nat) (ha : 16777216 ≤ a) : 16777216 ≤ f32RoundNat a := by
  have he : 1 ≤ f32Exp 104 a := by
    have := f32Exp_ge 104 a 0 (by decide) (by simpa using ha)
    omega
  have hq := f32Exp_quot_ge 104 a he
  have hle := f32RoundNat_ge a
  have hpow : 2 ≤ 2 ^ f32Exp 104 a := by
    calc 2 = 2 ^ 1 := rfl
      _ ≤ 2 ^ f32Exp 104 a := Nat.pow_le_pow_right (by decide) he
  have : 8388608 * 2 ≤ a / 2 ^ f32Exp 104 a * 2 ^ f32Exp 104 a := Nat.mul_le_mul hq hpow
  omega

/-- A product of 107375 cells or more rounds to a value beyond the `int` range. -/
theorem f32RoundNat_beyond (a : Nat) (ha : 2147500000 ≤ a) : 2147483648 < f32RoundNat a := by
  have he : 8 ≤ f32Exp 104 a := by
    have := f32Exp_ge 104 a 7 (by decide) (by norm_num; omega)
    omega
  have hq := f32Exp_quot_ge 104 a (by omega)
  have hle := f32RoundNat_ge a
  by_cases h8 : f32Exp 104 a = 8
  · rw [h8] at hle
    have hdiv : a < (a / 2 ^ 8 + 1) * 2 ^ 8 := by
      have := Nat.lt_div_mul_add (a := a) (b := 2 ^ 8) (by decide)
      rw [Nat.add_mul]
      simpa using this
    norm_num at hle hdiv
    omega
  · have hpow : 2 ^ 9 ≤ 2 ^ f32Exp 104 a := Nat.pow_le_pow_right (by decide) (by omega)
    have : 8388608 * 2 ^ 9 ≤ a / 2 ^ f32Exp 104 a * 2 ^ f32Exp 104 a := Nat.mul_le_mul hq hpow
    norm_num at this
    omega

/-- The float product `d * sector_size` leaves the `int` range as soon as `d` is
107375 cells or more away from zero. -/
theorem floatToInt_beyond (d : Int) (hd : 107375 ≤ d.natAbs) :
    floatToInt (intMulFloat d sector_size) = .error .floatToIntOutOfRange := by
  have h1 : 107375 ≤ (f32Round d).natAbs := by
    by_cases hs : d.natAbs < 16777216
    · rw [f32Round_small d hs]; exact hd
    · have := f32RoundNat_large d.natAbs (by omega)
      unfold f32Round
      split <;> omega
  have h2 : 2147500000 ≤ (f32Round d * 20000).natAbs := by
    have : (20000 : Int).natAbs = 20000 := rfl
    rw [Int.natAbs_mul, this]
    omega
  have h3 := f32RoundNat_beyond _ h2
  unfold floatToInt intMulFloat sector_size INT_MIN INT_MAX
  generalize f32Round d * 20000 = v at h3 ⊢
  rw [if_neg]
  unfold f32Round
  split <;> omega

theorem charToInt_bounds (sc : Bool) (c : CChar) :
    -128 ≤ charToInt sc c ∧ charToInt sc c ≤ 255 := by
  have := c.isLt
  unfold charToInt
  split
  · rename_i h
    simp only [Bool.and_eq_true, decide_eq_true_eq] at h
    omega
  · omega

theorem charToInt_ascii (sc : Bool) (c : CChar) (h : c.val < 128) :
    charToInt sc c = (c.val : Int) := by
  unfold charToInt
  have : ¬ (128 ≤ c.val) := by omega
  simp [this]

theorem toupper_bounds (c : Int) (h : -128 ≤ c ∧ c ≤ 255) :
    -128 ≤ toupper c ∧ toupper c ≤ 255 := by
  unfold toupper
  split <;> omega

/-- Once `stoi` has produced the column `n`, the row part never fails: the result is
that of the final statement for a row offset `k * 20000` of at most 26843 cells. -/
theorem luaSectorToXY_of_parsed (sc : Bool) (c0 c1 : CChar) (rest : CString) (n : Int)
    (hp : stoi (numericPart sc (c0 :: c1 :: rest)) = .ok n) :
    ∃ k : Int, k.natAbs ≤ 26843 ∧
      luaSectorToXY sc (c0 :: c1 :: rest) = sectorResult n (k * 20000) := by
  have b0 := charToInt_bounds sc c0
  have b1 := charToInt_bounds sc c1
  simp only [numericPart] at hp
  simp only [luaSectorToXY]
  cases htl : twoLetter sc c0 c1
  · simp only [htl, Bool.false_eq_true, if_false] at hp ⊢
    simp only [hp]
    have bu := toupper_bounds _ b0
    rw [floatToInt_cells _ (by omega)]
    simp only [bind, Except.bind]
    exact ⟨_, by omega, rfl⟩
  · simp only [htl, if_true] at hp ⊢
    simp only [hp]
    unfold twoLetter at htl
    simp only [Bool.and_eq_true, decide_eq_true_eq] at htl
    split
    · rename_i hlow
      rw [floatToInt_cells_neg _ (by omega)]
      simp only [bind, Except.bind]
      rw [show -(((122 - charToInt sc c0) * 26 + (122 - charToInt sc c1 + 6)) * 20000)
          = (-((122 - charToInt sc c0) * 26 + (122 - charToInt sc c1 + 6))) * 20000 by ring]
      exact ⟨_, by omega, rfl⟩
    · rw [floatToInt_cells _ (by omega)]
      simp only [bind, Except.bind]
      exact ⟨_, by omega, rfl⟩

/-- What `luaSectorToXY` computes once `stoi` has produced the column `n`, as long as
the column is at most 26844 cells away from column 5. -/
theorem luaSectorToXY_parsed (sc : Bool) (c0 c1 : CChar) (rest : CString) (n : Int)
    (hp : stoi (numericPart sc (c0 :: c1 :: rest)) = .ok n) (hn : (n - 5).natAbs ≤ 26844) :
    ∃ y, luaSectorToXY sc (c0 :: c1 :: rest) = .ok ((n - 5) * 20000, y) := by
  obtain ⟨k, hk, h⟩ := luaSectorToXY_of_parsed sc c0 c1 rest n hp
  exact ⟨_, h.trans (sectorResult_exact n k hn hk)⟩

/-- The final statement fails as soon as the column is 107375 cells or more away from
column 5. -/
theorem sectorResult_beyond (n y : Int) (hn : 107375 ≤ (n - 5).natAbs) :
    ∃ f, sectorResult n y = .error f := by
  unfold sectorResult checkedInt
  by_cases h1 : INT_MIN ≤ n - 5 ∧ n - 5 ≤ INT_MAX
  · rw [if_pos h1]
    simp only [bind, Except.bind]
    rw [floatToInt_beyond _ hn]
    exact ⟨_, rfl⟩
  · rw [if_neg h1]
    exact ⟨_, rfl⟩

theorem luaSectorToXY_unparsed (sc : Bool) (c0 c1 : CChar) (rest : CString) (e : StoiError)
    (hp : stoi (numericPart sc (c0 :: c1 :: rest)) = .error e) :
    luaSectorToXY sc (c0 :: c1 :: rest) = .ok (0, 0) := by
  simp only [numericPart] at hp
  simp only [luaSectorToXY]
  cases htl : twoLetter sc c0 c1
  · simp only [htl, Bool.false_eq_true, if_false] at hp ⊢
    simp only [hp]
  · simp only [htl, if_true] at hp ⊢
    simp only [hp]

/-- The inputs on which `luaSectorToXY` runs into undefined behaviour are exactly the
labels whose column `std::stoi` parses to a value 107375 cells or more away from
column 5; on every other input it returns a coordinate. -/
theorem luaSectorToXY_faults_iff (sc : Bool) (sector : CString) :
    (∃ f, luaSectorToXY sc sector = .error f) ↔
      (2 ≤ sector.length ∧
        ∃ n, stoi (numericPart sc sector) = .ok n ∧ 107375 ≤ (n - 5).natAbs) := by
  match sector with
  | [] => simp [luaSectorToXY]
  | [_] => simp [luaSectorToXY]
  | c0 :: c1 :: rest =>
    cases hp : stoi (numericPart sc (c0 :: c1 :: rest)) with
    | error e =>
      rw [luaSectorToXY_unparsed sc c0 c1 rest e hp]
      simp
    | ok n =>
      obtain ⟨k, hk, h⟩ := luaSectorToXY_of_parsed sc c0 c1 rest n hp
      rw [h]
      constructor
      · intro hf
        refine ⟨by simp, n, rfl, ?_⟩
        by_contra hlt
        rw [sectorResult_ok n k (by omega) hk] at hf
        obtain ⟨f, hf⟩ := hf
        cases hf
      · rintro ⟨_, m, hm, hbig⟩
        cases hm
        exact sectorResult_beyond n _ hbig

theorem twoLetter_ascii (sc : Bool) (c0 c1 : CChar) (h0 : 65 ≤ c0.val) (h0' : c0.val < 128)
    (h1 : 65 ≤ c1.val) (h1' : c1.val < 128) : twoLetter sc c0 c1 = true := by
  unfold twoLetter
  rw [charToInt_ascii sc c0 h0', charToInt_ascii sc c1 h1']
  simp only [Bool.and_eq_true, decide_eq_true_eq]
  omega

/-- C1. The documented reference coordinates of `sectorToXY`, with
`sector_size = 20000`: "F5" is the origin (0, 0), "A0" is (-100000, -100000),
"zz-23" is (-560000, -120000) and "BA12" is (140000, 940000). -/
theorem luaSectorToXY_reference_table (sc : Bool) :
    sector_size = 20000 ∧
    luaSectorToXY sc (cstr "F5") = .ok (0, 0) ∧
    luaSectorToXY sc (cstr "A0") = .ok (-100000, -100000) ∧
    luaSectorToXY sc (cstr "zz-23") = .ok (-560000, -120000) ∧
    luaSectorToXY sc (cstr "BA12") = .ok (140000, 940000) := by
  cases sc <;> decide

/-- C2 (defect). `luaSectorToXY` is not total: on the label "A200000" the product
`(intpart - 5) * sector_size` is 3999900000, which does not fit the `int` variable
`x` it is assigned to, and on "A-2147483648" the `int` subtraction `intpart - 5`
overflows; both are undefined behaviour. Parse failures are caught: "A" followed by
no digits and "A99999999999" give (0, 0). -/
theorem luaSectorToXY_arithmetic_leaves_int_range (sc : Bool) :
    luaSectorToXY sc (cstr "A200000") = .error .floatToIntOutOfRange ∧
    luaSectorToXY sc (cstr "A-2147483648") = .error .signedOverflow ∧
    luaSectorToXY sc (cstr "Ax") = .ok (0, 0) ∧
    luaSectorToXY sc (cstr "A99999999999") = .ok (0, 0) := by
  cases sc <;> decide

/-- C6 (counterexample). The remainder "5x" of the label "A5x" is not a decimal
integer, yet the result is (0, -100000) and not the default (0, 0); and for the
label "F26850", whose remainder is the decimal integer 26850, the result has
x = 536899968, which is not (26850 - 5) * 20000 = 536900000. -/
theorem luaSectorToXY_trailing_text_counterexample :
    (specDecimalInteger (numericPart true (cstr "A5x")) = false ∧
      luaSectorToXY true (cstr "A5x") = .ok (0, -100000) ∧
      luaSectorToXY false (cstr "A5x") = .ok (0, -100000)) ∧
    (specDecimalInteger (numericPart true (cstr "F26850")) = true ∧
      stoi (numericPart true (cstr "F26850")) = .ok 26850 ∧
      luaSectorToXY true (cstr "F26850") = .ok (536899968, 0) ∧
      luaSectorToXY false (cstr "F26850") = .ok (536899968, 0) ∧
      (536899968 : Int) ≠ (26850 - 5) * 20000) := by
  decide

/-- C6 (amended). For every label of length at least 2: when `std::stoi` fails on
the remainder after the row code (no digits after optional white space and sign, or
a value outside the `int` range), `luaSectorToXY` returns the default (0, 0); when
`std::stoi` reads the integer `n` from the start of the remainder (characters after
the digits are ignored) and `n` is at most 26844 columns away from column 5, the
result has x = (n - 5) * 20000. -/
theorem luaSectorToXY_numeric_part (sc : Bool) (sector : CString) (hlen : 2 ≤ sector.length) :
    (∀ e, stoi (numericPart sc sector) = .error e → luaSectorToXY sc sector = .ok (0, 0)) ∧
    (∀ n, stoi (numericPart sc sector) = .ok n → (n - 5).natAbs ≤ 26844 →
      ∃ y, luaSectorToXY sc sector = .ok ((n - 5) * 20000, y)) := by
  match sector, hlen with
  | c0 :: c1 :: rest, _ =>
    exact ⟨fun e he => luaSectorToXY_unparsed sc c0 c1 rest e he,
      fun n hp hn => luaSectorToXY_parsed sc c0 c1 rest n hp hn⟩

/-- Witness for C6 (amended): the labels "A0" (column 0) and "Ax" (no column). -/
theorem luaSectorToXY_numeric_part_witness :
    2 ≤ (cstr "A0").length ∧
    stoi (numericPart true (cstr "A0")) = .ok 0 ∧
    ((0 : Int) - 5).natAbs ≤ 26844 ∧
    (∃ y, luaSectorToXY true (cstr "A0") = .ok ((0 - 5) * 20000, y)) ∧
    stoi (numericPart true (cstr "Ax")) = .error .invalidArgument ∧
    luaSectorToXY true (cstr "Ax") = .ok (0, 0) :=
  ⟨by decide, by decide, by decide,
    (luaSectorToXY_numeric_part true (cstr "A0") (by decide)).2 0 (by decide) (by decide),
    by decide,
    (luaSectorToXY_numeric_part true (cstr "Ax") (by decide)).1 .invalidArgument (by decide)⟩

/-- C7 (counterexample). For the lowercase pair "aa" the test `a1 > 'a'` fails, so
"aa5" is handled by the uppercase formula: y = 17700000 instead of
-20000 * (25 * 26 + 25 + 6) = -13620000. For "zz26850" the column parses as 26850
but x = 536899968, not (26850 - 5) * 20000. And "AA", with no column, gives (0, 0),
whose y is not 20000 * 21. -/
theorem luaSectorToXY_lowercase_a_counterexample :
    (luaSectorToXY true (cstr "aa5") = .ok (0, 17700000) ∧
      luaSectorToXY false (cstr "aa5") = .ok (0, 17700000) ∧
      (17700000 : Int) ≠ -20000 * ((122 - 97) * 26 + (122 - 97) + 6)) ∧
    (stoi (cstr "26850") = .ok 26850 ∧
      luaSectorToXY true (cstr "zz26850") = .ok (536899968, -120000) ∧
      luaSectorToXY false (cstr "zz26850") = .ok (536899968, -120000) ∧
      (536899968 : Int) ≠ (26850 - 5) * 20000) ∧
    (luaSectorToXY true (cstr "AA") = .ok (0, 0) ∧
      luaSectorToXY false (cstr "AA") = .ok (0, 0) ∧
      (0 : Int) ≠ 20000 * ((65 - 65) * 26 + (65 - 65) + 21)) := by
  decide

/-- C7 (amended). For every label whose first two characters are lowercase letters
a1 in 'b'..'z' and a2 in 'a'..'z' and whose remainder `std::stoi` parses as the
integer n, at most 26844 columns away from column 5, rows count downward from "zz":
y = -20000 * (('z' - a1) * 26 + ('z' - a2) + 6) and x = (n - 5) * 20000. For every
label whose first two characters are uppercase letters in 'A'..'Z' and whose
remainder parses as n, at most 107374 columns away from column 5,
y = 20000 * ((a1 - 'A') * 26 + (a2 - 'A') + 21) and x is (n - 5) * 20000 rounded to
the nearest binary32 value. -/
theorem luaSectorToXY_row_pairs (sc : Bool) (c0 c1 : CChar) (rest : CString) (n : Int)
    (hp : stoi rest = .ok n) :
    (98 ≤ c0.val → c0.val ≤ 122 → 97 ≤ c1.val → c1.val ≤ 122 → (n - 5).natAbs ≤ 26844 →
      luaSectorToXY sc (c0 :: c1 :: rest)
        = .ok ((n - 5) * 20000,
            -20000 * ((122 - (c0.val : Int)) * 26 + (122 - (c1.val : Int)) + 6))) ∧
    (65 ≤ c0.val → c0.val ≤ 90 → 65 ≤ c1.val → c1.val ≤ 90 → (n - 5).natAbs ≤ 107374 →
      luaSectorToXY sc (c0 :: c1 :: rest)
        = .ok (f32Round ((n - 5) * 20000),
            20000 * (((c0.val : Int) - 65) * 26 + ((c1.val : Int) - 65) + 21))) := by
  constructor
  · intro h0 h0' h1 h1' hn
    have htl := twoLetter_ascii sc c0 c1 (by omega) (by omega) (by omega) (by omega)
    simp only [luaSectorToXY, htl, if_true, hp]
    rw [charToInt_ascii sc c0 (by omega), charToInt_ascii sc c1 (by omega)]
    have hgt : (c0.val : Int) > 97 := by omega
    rw [if_pos hgt, floatToInt_cells_neg _ (by omega)]
    simp only [bind, Except.bind]
    rw [show -(((122 - (c0.val : Int)) * 26 + (122 - (c1.val : Int) + 6)) * 20000)
        = (-((122 - (c0.val : Int)) * 26 + (122 - (c1.val : Int) + 6))) * 20000 by ring,
      sectorResult_exact n _ hn (by omega)]
    congr 2
    ring
  · intro h0 h0' h1 h1' hn
    have htl := twoLetter_ascii sc c0 c1 (by omega) (by omega) (by omega) (by omega)
    simp only [luaSectorToXY, htl, if_true, hp]
    rw [charToInt_ascii sc c0 (by omega), charToInt_ascii sc c1 (by omega)]
    have hgt : ¬ ((c0.val : Int) > 97) := by omega
    rw [if_neg hgt, floatToInt_cells _ (by omega)]
    simp only [bind, Except.bind]
    rw [sectorResult_ok n _ hn (by omega)]
    congr 2
    ring

/-- Witness for C7 (amended): the labels "zz-23" and "BA12" of the reference table. -/
theorem luaSectorToXY_row_pairs_witness :
    stoi (cstr "-23") = .ok (-23) ∧
    luaSectorToXY true (122 :: 122 :: cstr "-23")
      = .ok ((-23 - 5) * 20000,
          -20000 * ((122 - (((122 : CChar).val : Nat) : Int)) * 26
            + (122 - (((122 : CChar).val : Nat) : Int)) + 6)) ∧
    stoi (cstr "12") = .ok 12 ∧
    luaSectorToXY true (66 :: 65 :: cstr "12")
      = .ok (f32Round ((12 - 5) * 20000),
          20000 * (((((66 : CChar).val : Nat) : Int) - 65) * 26
            + ((((65 : CChar).val : Nat) : Int) - 65) + 21)) :=
  ⟨by decide,
    (luaSectorToXY_row_pairs true 122 122 (cstr "-23") (-23) (by decide)).1
      (by decide) (by decide) (by decide) (by decide) (by decide),
    by decide,
    (luaSectorToXY_row_pairs true 66 65 (cstr "12") 12 (by decide)).2
      (by decide) (by decide) (by decide) (by decide) (by decide)⟩


/-! ## Scenario settings and GM functions: properties -/

theorem modifyBack_append_singleton {α : Type} (f : α → α) (v : List α) (x : α) :
    modifyBack f (v ++ [x]) = v ++ [f x] := by
  induction v with
  | nil => rfl
  | cons a t ih =>
    cases t with
    | nil => rfl
    | cons b t' =>
      have : modifyBack f (a :: b :: t' ++ [x]) = a :: modifyBack f (b :: t' ++ [x]) := rfl
      rw [this, ih]
      rfl

/-- C8. The GM-function registry is an insertion-ordered sequence:
`luaAddGMFunction(label, callback)` appends exactly the entry (label, callback) at the
end and leaves all earlier entries unchanged, so two registrations under the same
label are both retained in insertion order; `luaClearGMFunctions` leaves the registry
empty from any state. -/
theorem gm_registry_insertion_ordered {Callback : Type} [Inhabited Callback]
    (registry : List (GMScriptCallback Callback)) (label : String) (c1 c2 : Callback) :
    luaAddGMFunction registry label c1 = registry ++ [{ name := label, callback := c1 }] ∧
    (luaAddGMFunction registry label c1).length = registry.length + 1 ∧
    (luaAddGMFunction registry label c1).take registry.length = registry ∧
    luaAddGMFunction (luaAddGMFunction registry label c1) label c2
      = registry ++ [{ name := label, callback := c1 }, { name := label, callback := c2 }] ∧
    luaClearGMFunctions registry = [] := by
  have h : ∀ (r : List (GMScriptCallback Callback)) (c : Callback),
      luaAddGMFunction r label c = r ++ [{ name := label, callback := c }] := by
    intro r c
    unfold luaAddGMFunction emplace_back
    rw [modifyBack_append_singleton]
  refine ⟨h _ _, ?_, ?_, ?_, rfl⟩
  · rw [h]; simp
  · rw [h]; simp
  · rw [h, h]; simp

/-- C10 (defect). With no "variation" setting stored, `luaGetScenarioVariation()`
returns "None" while `luaGetScenarioSetting("variation")` returns the empty string,
although the two are documented to be the same; with the setting stored as "Hard"
both return "Hard". -/
theorem luaGetScenarioVariation_differs_when_absent :
    luaGetScenarioVariation [] = "None" ∧
    luaGetScenarioSetting [] "variation" = "" ∧
    luaGetScenarioVariation [] ≠ luaGetScenarioSetting [] "variation" ∧
    luaGetScenarioVariation [("variation", "Hard")]
      = luaGetScenarioSetting [("variation", "Hard")] "variation" := by
  decide

/-- Whenever the "variation" setting is stored, `luaGetScenarioVariation()` and
`luaGetScenarioSetting("variation")` return the same string. -/
theorem luaGetScenarioVariation_agrees_when_present (settings : ScenarioSettings)
    (value : String) (h : settings.find "variation" = some value) :
    luaGetScenarioVariation settings = luaGetScenarioSetting settings "variation" := by
  unfold luaGetScenarioVariation luaGetScenarioSetting
  rw [h]


/-! ## `luaRequire`: properties -/

@[simp] theorem LuaM.bind_apply {α β : Type} (m : LuaM α) (f : α → LuaM β) (st : LuaState) :
    (m >>= f) st =
      match m st with
      | .done a st1 => f a st1
      | .raised e st1 => .raised e st1
      | .violation => .violation := rfl

@[simp] theorem LuaM.pure_apply {α : Type} (a : α) (st : LuaState) :
    (pure a : LuaM α) st = .done a st := rfl

theorem stackPos_one (v : LuaValue) (rest : List LuaValue) : stackPos (v :: rest) 1 = some 0 := by
  unfold stackPos
  simp

theorem stackPos_top (s : List LuaValue) (v : LuaValue) :
    stackPos (s ++ [v]) (-1) = some s.length := by
  unfold stackPos
  simp

theorem stackGet_one (v : LuaValue) (rest : List LuaValue) : stackGet (v :: rest) 1 = v := by
  unfold stackGet
  rw [stackPos_one]
  rfl

theorem stackGet_top (s : List LuaValue) (v : LuaValue) : stackGet (s ++ [v]) (-1) = v := by
  unfold stackGet
  rw [stackPos_top]
  simp

/-- Behaviour of `luaL_checkstring(L, 1)` on a frame whose first slot converts to a string. -/
theorem luaL_checkstring_one (I : Interp) (v : LuaValue) (rest : List LuaValue)
    (heap : List LuaTable) (log : List HostEvent) (filename : String)
    (hv : v.tolstring I = some filename) :
    luaL_checkstring I 1 { stack := v :: rest, heap := heap, log := log }
      = .done filename { stack := .str filename :: rest, heap := heap, log := log } := by
  unfold luaL_checkstring
  simp only [stackGet_one, stackPos_one, hv]
  rfl

/-- Behaviour of `luaL_checkstring(L, -1)` on a frame with a string on top. -/
theorem luaL_checkstring_top_str (I : Interp) (s : List LuaValue) (msg : String)
    (heap : List LuaTable) (log : List HostEvent) :
    luaL_checkstring I (-1) { stack := s ++ [.str msg], heap := heap, log := log }
      = .done msg { stack := s ++ [.str msg], heap := heap, log := log } := by
  unfold luaL_checkstring
  simp only [stackGet_top, stackPos_top, LuaValue.tolstring]
  simp

theorem lua_error_top {α : Type} (s : List LuaValue) (e : LuaValue) (heap : List LuaTable)
    (log : List HostEvent) :
    (lua_error : LuaM α) { stack := s ++ [e], heap := heap, log := log }
      = .raised e { stack := s, heap := heap, log := log ++ [.raise] } := by
  unfold lua_error
  simp

/-- C3. For every filename the resource resolver does not find, `luaRequire` raises
an error whose message is "Require: Script not found: " followed by the filename, and
does nothing else: no localization overlay is loaded, no chunk is compiled or
executed (the only host event is the raising call itself), and the heap, with the
environment's globals in it, is unchanged. -/
theorem luaRequire_not_found (H : RequireHost) (I : Interp) (upvalue v : LuaValue)
    (rest : List LuaValue) (heap : List LuaTable) (log : List HostEvent) (filename : String)
    (hv : v.tolstring I = some filename) (hmiss : H.getResourceStream filename = none) :
    luaRequire H I upvalue { stack := v :: rest, heap := heap, log := log }
      = .raised (.str ("Require: Script not found: " ++ filename))
          { stack := .str filename :: rest, heap := heap, log := log ++ [.raise] } := by
  unfold luaRequire
  simp only [LuaM.bind_apply, lua_gettop, luaL_checkstring_one I v rest heap log filename hv]
  simp only [requireLoad, hmiss, LuaM.bind_apply, lua_pushstring, lua_push, requireRun,
    Bool.not_true, Bool.false_eq_true, if_false, if_true, LuaM.pure_apply]
  exact lua_error_top _ _ _ _

theorem luaL_checkstring_top (I : Interp) (s : List LuaValue) (e : LuaValue) (msg : String)
    (heap : List LuaTable) (log : List HostEvent) (he : e.tolstring I = some msg) :
    luaL_checkstring I (-1) { stack := s ++ [e], heap := heap, log := log }
      = .done msg { stack := s ++ [.str msg], heap := heap, log := log } := by
  unfold luaL_checkstring
  simp only [stackGet_top, stackPos_top, he]
  simp

theorem luaL_checkstring_top_fail (I : Interp) (s : List LuaValue) (e : LuaValue)
    (heap : List LuaTable) (log : List HostEvent) (he : e.tolstring I = none) :
    luaL_checkstring I (-1) { stack := s ++ [e], heap := heap, log := log }
      = .raised (I.argError (-1) e) { stack := s ++ [e], heap := heap, log := log ++ [.raise] } := by
  unfold luaL_checkstring
  simp only [stackGet_top, stackPos_top, he]

theorem lua_setupvalue_closure (s : List LuaValue) (c : Nat) (u v : LuaValue)
    (heap : List LuaTable) (log : List HostEvent) :
    lua_setupvalue { stack := s ++ [.closure c u, v], heap := heap, log := log }
      = .done () { stack := s ++ [.closure c v], heap := heap, log := log } := by
  unfold lua_setupvalue
  have h1 : (s ++ [LuaValue.closure c u, v]).getLast? = some v := by simp
  have h2 : (s ++ [LuaValue.closure c u, v]).dropLast = s ++ [LuaValue.closure c u] := by
    rw [show s ++ [LuaValue.closure c u, v] = (s ++ [LuaValue.closure c u]) ++ [v] by simp]
    exact List.dropLast_concat
  simp only [h1, h2]
  simp

theorem lua_pcall_ok (I : Interp) (s : List LuaValue) (f : LuaValue) (heap heap1 : List LuaTable)
    (log : List HostEvent) (results : List LuaValue)
    (hrun : I.call f [] heap = (.ok results, heap1)) :
    lua_pcall I { stack := s ++ [f], heap := heap, log := log }
      = .done false { stack := s ++ results, heap := heap1, log := log ++ [.call] } := by
  unfold lua_pcall
  simp [hrun]

theorem lua_pcall_error (I : Interp) (s : List LuaValue) (f e : LuaValue)
    (heap heap1 : List LuaTable) (log : List HostEvent)
    (hrun : I.call f [] heap = (.error e, heap1)) :
    lua_pcall I { stack := s ++ [f], heap := heap, log := log }
      = .done true { stack := s ++ [e], heap := heap1, log := log ++ [.call] } := by
  unfold lua_pcall
  simp [hrun]

/-- The stream scope of `luaRequire` when the file is found and compiles. -/
theorem requireLoad_ok (H : RequireHost) (I : Interp) (s : List LuaValue) (heap : List LuaTable)
    (log : List HostEvent) (filename contents : String) (chunk : Nat)
    (hfound : H.getResourceStream filename = some contents)
    (hload : H.loadbuffer contents ("@" ++ filename) = .ok chunk) :
    requireLoad H I filename { stack := s, heap := heap, log := log }
      = .done false
          { stack := s ++ [.closure chunk I.globals], heap := heap,
            log := log ++ loadEvents H filename } := by
  simp only [requireLoad, hfound, luaL_loadbuffer, hload, LuaM.bind_apply, logEvent, i18n_load,
    lua_push, LuaM.pure_apply, Bool.false_eq_true, if_false, loadEvents]
  simp

/-- The stream scope of `luaRequire` when the file is found and does not compile. -/
theorem requireLoad_error (H : RequireHost) (I : Interp) (s : List LuaValue)
    (heap : List LuaTable) (log : List HostEvent) (filename contents message : String)
    (hfound : H.getResourceStream filename = some contents)
    (hload : H.loadbuffer contents ("@" ++ filename) = .error message) :
    requireLoad H I filename { stack := s, heap := heap, log := log }
      = .done true
          { stack := s ++ [.str message, .str ("require:" ++ message)], heap := heap,
            log := log ++ loadEvents H filename } := by
  simp only [requireLoad, hfound, luaL_loadbuffer, hload, LuaM.bind_apply, logEvent, i18n_load,
    lua_pushstring, lua_push, LuaM.pure_apply, if_true, luaL_checkstring_top_str, loadEvents]
  simp

theorem requireRun_pending (I : Interp) (upvalue : LuaValue) (st : LuaState) :
    requireRun I upvalue true st = .done true st := by
  simp only [requireRun, Bool.not_true, Bool.false_eq_true, if_false, LuaM.pure_apply]

theorem requireRun_ok (I : Interp) (upvalue u : LuaValue) (s : List LuaValue) (chunk : Nat)
    (heap heap1 : List LuaTable) (log : List HostEvent) (results : List LuaValue)
    (hrun : I.call (.closure chunk upvalue) [] heap = (.ok results, heap1)) :
    requireRun I upvalue false { stack := s ++ [.closure chunk u], heap := heap, log := log }
      = .done false { stack := s ++ results, heap := heap1, log := log ++ [.call] } := by
  simp only [requireRun, Bool.not_false, if_true, LuaM.bind_apply, lua_push, List.append_assoc,
    List.singleton_append, lua_setupvalue_closure, lua_pcall_ok I s _ heap heap1 log results hrun,
    Bool.false_eq_true, if_false, LuaM.pure_apply]

theorem requireRun_error_string (I : Interp) (upvalue u e : LuaValue) (s : List LuaValue)
    (chunk : Nat) (heap heap1 : List LuaTable) (log : List HostEvent) (message : String)
    (hrun : I.call (.closure chunk upvalue) [] heap = (.error e, heap1))
    (he : e.tolstring I = some message) :
    requireRun I upvalue false { stack := s ++ [.closure chunk u], heap := heap, log := log }
      = .done true
          { stack := s ++ [.str message, .str ("require:" ++ message)], heap := heap1,
            log := log ++ [.call] } := by
  simp only [requireRun, Bool.not_false, if_true, LuaM.bind_apply, lua_push, List.append_assoc,
    List.singleton_append, lua_setupvalue_closure, lua_pcall_error I s _ e heap heap1 log hrun,
    luaL_checkstring_top I s e message heap1 _ he, lua_pushstring, LuaM.pure_apply]

theorem requireRun_error_other (I : Interp) (upvalue u e : LuaValue) (s : List LuaValue)
    (chunk : Nat) (heap heap1 : List LuaTable) (log : List HostEvent)
    (hrun : I.call (.closure chunk upvalue) [] heap = (.error e, heap1))
    (he : e.tolstring I = none) :
    requireRun I upvalue false { stack := s ++ [.closure chunk u], heap := heap, log := log }
      = .raised (I.argError (-1) e)
          { stack := s ++ [e], heap := heap1,
            log := log ++ [.call, .raise] } := by
  simp only [requireRun, Bool.not_false, if_true, LuaM.bind_apply, lua_push, List.append_assoc,
    List.singleton_append, lua_setupvalue_closure, lua_pcall_error I s _ e heap heap1 log hrun,
    luaL_checkstring_top_fail I s e heap1 _ he]

/-- Behaviour of `luaRequire` when the module is found but does not compile. -/
theorem luaRequire_compile_error (H : RequireHost) (I : Interp) (upvalue v : LuaValue)
    (rest : List LuaValue) (heap : List LuaTable) (log : List HostEvent)
    (filename contents message : String)
    (hv : v.tolstring I = some filename) (hfound : H.getResourceStream filename = some contents)
    (hload : H.loadbuffer contents ("@" ++ filename) = .error message) :
    luaRequire H I upvalue { stack := v :: rest, heap := heap, log := log }
      = .raised (.str ("require:" ++ message))
          { stack := (.str filename :: rest) ++ [.str message], heap := heap,
            log := log ++ loadEvents H filename ++ [.raise] } := by
  unfold luaRequire
  simp only [LuaM.bind_apply, lua_gettop, luaL_checkstring_one I v rest heap log filename hv,
    requireLoad_error H I _ heap log filename contents message hfound hload,
    requireRun_pending, if_true]
  rw [show (LuaValue.str filename :: rest) ++ [LuaValue.str message,
      LuaValue.str ("require:" ++ message)]
      = ((LuaValue.str filename :: rest) ++ [LuaValue.str message])
        ++ [LuaValue.str ("require:" ++ message)] by simp, lua_error_top]

/-- Behaviour of `luaRequire` when the module is found, compiles and runs to completion. -/
theorem luaRequire_success (H : RequireHost) (I : Interp) (upvalue v : LuaValue)
    (rest : List LuaValue) (heap heap1 : List LuaTable) (log : List HostEvent)
    (filename contents : String) (chunk : Nat) (results : List LuaValue)
    (hv : v.tolstring I = some filename) (hfound : H.getResourceStream filename = some contents)
    (hload : H.loadbuffer contents ("@" ++ filename) = .ok chunk)
    (hrun : I.call (.closure chunk upvalue) [] heap = (.ok results, heap1)) :
    luaRequire H I upvalue { stack := v :: rest, heap := heap, log := log }
      = .done (results.length : Int)
          { stack := (.str filename :: rest) ++ results, heap := heap1,
            log := log ++ loadEvents H filename ++ [.call] } := by
  unfold luaRequire
  simp only [LuaM.bind_apply, lua_gettop, luaL_checkstring_one I v rest heap log filename hv,
    requireLoad_ok H I _ heap log filename contents chunk hfound hload,
    requireRun_ok I upvalue _ _ chunk heap heap1 _ results hrun, Bool.false_eq_true, if_false,
    LuaM.pure_apply]
  congr 1
  simp only [List.length_append, List.length_cons]
  push_cast
  ring

/-- Behaviour of `luaRequire` when the chunk raises an error value that converts to a string. -/
theorem luaRequire_runtime_error (H : RequireHost) (I : Interp) (upvalue v e : LuaValue)
    (rest : List LuaValue) (heap heap1 : List LuaTable) (log : List HostEvent)
    (filename contents message : String) (chunk : Nat)
    (hv : v.tolstring I = some filename) (hfound : H.getResourceStream filename = some contents)
    (hload : H.loadbuffer contents ("@" ++ filename) = .ok chunk)
    (hrun : I.call (.closure chunk upvalue) [] heap = (.error e, heap1))
    (he : e.tolstring I = some message) :
    luaRequire H I upvalue { stack := v :: rest, heap := heap, log := log }
      = .raised (.str ("require:" ++ message))
          { stack := (.str filename :: rest) ++ [.str message], heap := heap1,
            log := log ++ loadEvents H filename ++ [.call, .raise] } := by
  unfold luaRequire
  simp only [LuaM.bind_apply, lua_gettop, luaL_checkstring_one I v rest heap log filename hv,
    requireLoad_ok H I _ heap log filename contents chunk hfound hload,
    requireRun_error_string I upvalue _ e _ chunk heap heap1 _ message hrun he, if_true]
  rw [show (LuaValue.str filename :: rest) ++ [LuaValue.str message,
      LuaValue.str ("require:" ++ message)]
      = ((LuaValue.str filename :: rest) ++ [LuaValue.str message])
        ++ [LuaValue.str ("require:" ++ message)] by simp, lua_error_top]
  simp

/-- Behaviour of `luaRequire` when the chunk raises an error value that is not a string. -/
theorem luaRequire_runtime_error_other (H : RequireHost) (I : Interp) (upvalue v e : LuaValue)
    (rest : List LuaValue) (heap heap1 : List LuaTable) (log : List HostEvent)
    (filename contents : String) (chunk : Nat)
    (hv : v.tolstring I = some filename) (hfound : H.getResourceStream filename = some contents)
    (hload : H.loadbuffer contents ("@" ++ filename) = .ok chunk)
    (hrun : I.call (.closure chunk upvalue) [] heap = (.error e, heap1))
    (he : e.tolstring I = none) :
    luaRequire H I upvalue { stack := v :: rest, heap := heap, log := log }
      = .raised (I.argError (-1) e)
          { stack := (.str filename :: rest) ++ [e], heap := heap1,
            log := log ++ loadEvents H filename ++ [.call, .raise] } := by
  unfold luaRequire
  simp only [LuaM.bind_apply, lua_gettop, luaL_checkstring_one I v rest heap log filename hv,
    requireLoad_ok H I _ heap log filename contents chunk hfound hload,
    requireRun_error_other I upvalue _ e _ chunk heap heap1 _ hrun he]

/-- Witness for C3: `require("absent.lua")` with a resolver that does not know the
file. -/
theorem luaRequire_not_found_witness :
    (LuaValue.str "absent.lua").tolstring exampleInterp = some "absent.lua" ∧
    exampleHost.getResourceStream "absent.lua" = none ∧
    luaRequire exampleHost exampleInterp .nil
        { stack := [.str "absent.lua", .number 7], heap := [], log := [] }
      = .raised (.str ("Require: Script not found: " ++ "absent.lua"))
          { stack := [.str "absent.lua", .number 7], heap := [], log := [] ++ [.raise] } :=
  ⟨rfl, by decide,
    luaRequire_not_found exampleHost exampleInterp .nil (.str "absent.lua") [.number 7] [] []
      "absent.lua" rfl (by decide)⟩

/-- C4. For every `luaRequire` call in which the resolver finds the module, the
resource stream is released exactly once, and the release comes before the compile
step (`luaL_loadbuffer`), before the execute step and before every error-raising
call, whether compilation fails, execution fails, or both succeed: the events of the
call are open, overlay load, read, release, compile, followed only by execute and
raise events. -/
theorem luaRequire_stream_release (H : RequireHost) (I : Interp) (upvalue v : LuaValue)
    (rest : List LuaValue) (heap : List LuaTable) (log : List HostEvent)
    (filename contents : String)
    (hv : v.tolstring I = some filename)
    (hfound : H.getResourceStream filename = some contents) :
    ∃ (st1 : LuaState) (tail : List HostEvent),
      (luaRequire H I upvalue { stack := v :: rest, heap := heap, log := log }).state? = some st1 ∧
      st1.log = log ++
        [.streamOpen filename,
         .i18nLoad ("locale/" ++ filename.replace ".lua" ("." ++ H.language ++ ".po")),
         .streamReadAll, .streamDestroy, .loadbuffer ("@" ++ filename)] ++ tail ∧
      (tail = [.raise] ∨ tail = [.call, .raise] ∨ tail = [.call]) ∧
      (st1.log.drop log.length).count .streamDestroy = 1 := by
  have hcount : ∀ tail : List HostEvent,
      (tail = [.raise] ∨ tail = [.call, .raise] ∨ tail = [.call]) →
      ((log ++ loadEvents H filename ++ tail).drop log.length).count .streamDestroy = 1 := by
    intro tail ht
    rw [List.append_assoc, List.drop_left]
    rcases ht with rfl | rfl | rfl <;> simp [loadEvents]
  cases hload : H.loadbuffer contents ("@" ++ filename) with
  | error message =>
    refine ⟨LuaState.mk ((.str filename :: rest) ++ [.str message]) heap
      (log ++ loadEvents H filename ++ [.raise]), [.raise], ?_, rfl, Or.inl rfl, ?_⟩
    · rw [luaRequire_compile_error H I upvalue v rest heap log filename contents message
        hv hfound hload]
      rfl
    · exact hcount _ (Or.inl rfl)
  | ok chunk =>
    rcases hrun : I.call (.closure chunk upvalue) [] heap with ⟨r, heap1⟩
    cases r with
    | ok results =>
      refine ⟨LuaState.mk ((.str filename :: rest) ++ results) heap1
        (log ++ loadEvents H filename ++ [.call]), [.call], ?_, rfl, Or.inr (Or.inr rfl), ?_⟩
      · rw [luaRequire_success H I upvalue v rest heap heap1 log filename contents chunk results
          hv hfound hload hrun]
        rfl
      · exact hcount _ (Or.inr (Or.inr rfl))
    | error e =>
      cases he : e.tolstring I with
      | some message =>
        refine ⟨LuaState.mk ((.str filename :: rest) ++ [.str message]) heap1
          (log ++ loadEvents H filename ++ [.call, .raise]), [.call, .raise], ?_, rfl,
          Or.inr (Or.inl rfl), ?_⟩
        · rw [luaRequire_runtime_error H I upvalue v e rest heap heap1 log filename contents
            message chunk hv hfound hload hrun he]
          rfl
        · exact hcount _ (Or.inr (Or.inl rfl))
      | none =>
        refine ⟨LuaState.mk ((.str filename :: rest) ++ [e]) heap1
          (log ++ loadEvents H filename ++ [.call, .raise]), [.call, .raise], ?_, rfl,
          Or.inr (Or.inl rfl), ?_⟩
        · rw [luaRequire_runtime_error_other H I upvalue v e rest heap heap1 log filename
            contents chunk hv hfound hload hrun he]
          rfl
        · exact hcount _ (Or.inr (Or.inl rfl))

/-- Witness for C4: `require("module.lua")` with a resolver that finds the file. -/
theorem luaRequire_stream_release_witness :
    (LuaValue.str "module.lua").tolstring exampleInterp = some "module.lua" ∧
    exampleHost.getResourceStream "module.lua" = some "" ∧
    ∃ (st1 : LuaState) (tail : List HostEvent),
      (luaRequire exampleHost exampleInterp .nil
        { stack := [.str "module.lua"], heap := [], log := [] }).state? = some st1 ∧
      st1.log = [] ++
        [.streamOpen "module.lua",
         .i18nLoad ("locale/" ++ String.replace "module.lua" ".lua"
           ("." ++ exampleHost.language ++ ".po")),
         .streamReadAll, .streamDestroy, .loadbuffer ("@" ++ "module.lua")] ++ tail ∧
      (tail = [.raise] ∨ tail = [.call, .raise] ∨ tail = [.call]) ∧
      (st1.log.drop ([] : List HostEvent).length).count .streamDestroy = 1 :=
  ⟨rfl, by decide,
    luaRequire_stream_release exampleHost exampleInterp .nil (.str "module.lua") [] [] []
      "module.lua" "" rfl (by decide)⟩

/-- C5 (counterexample). `require(5)`, with a file named "5" that the resolver finds
and whose chunk returns two values: the call succeeds and reports 2 results, but the
slot below them no longer holds the number 5; `luaL_checkstring` has replaced it by
the string "5". -/
theorem luaRequire_number_argument_counterexample :
    exampleHost.getResourceStream "5" = some "" ∧
    (luaRequire exampleHost exampleInterp .nil
        { stack := [.number 5], heap := [], log := [] }).result? = some 2 ∧
    ((luaRequire exampleHost exampleInterp .nil
        { stack := [.number 5], heap := [], log := [] }).state?).map (fun st => st.stack)
      = some [.str "5", .str "exports", .boolean true] ∧
    ([.str "5", .str "exports", .boolean true] : List LuaValue)
      ≠ [.number 5] ++ [.str "exports", .boolean true] := by
  have h := luaRequire_success exampleHost exampleInterp .nil (.number 5) [] [] [] [] "5" "" 0
    [.str "exports", .boolean true] (by decide) (by decide) rfl rfl
  refine ⟨by decide, ?_, ?_, by decide⟩
  · rw [h]; rfl
  · rw [h]; rfl

/-- C5 (amended). For every successful `luaRequire` call entered with stack height
old_top >= 1 whose chunk returns k values, the call reports exactly k results, those
results are the chunk's returned values in the same order on top of the stack, and
the old_top slots below them are unchanged, except that slot 1, when it held a
number, now holds the string that number converts to (the compiled function and the
pushed environment upvalue do not remain on the stack). -/
theorem luaRequire_results_on_top (H : RequireHost) (I : Interp) (upvalue v : LuaValue)
    (rest : List LuaValue) (heap heap1 : List LuaTable) (log : List HostEvent)
    (filename contents : String) (chunk : Nat) (results : List LuaValue)
    (hv : v.tolstring I = some filename)
    (hfound : H.getResourceStream filename = some contents)
    (hload : H.loadbuffer contents ("@" ++ filename) = .ok chunk)
    (hrun : I.call (.closure chunk upvalue) [] heap = (.ok results, heap1)) :
    ∃ st1 : LuaState,
      luaRequire H I upvalue { stack := v :: rest, heap := heap, log := log }
        = .done (results.length : Int) st1 ∧
      st1.stack = (v.afterTolstring I :: rest) ++ results ∧
      st1.heap = heap1 := by
  refine ⟨_, luaRequire_success H I upvalue v rest heap heap1 log filename contents chunk results
    hv hfound hload hrun, ?_, rfl⟩
  cases v <;> simp_all [LuaValue.tolstring, LuaValue.afterTolstring]

/-- Witness for C5 (amended): `require("module.lua", 7)` with a chunk that returns two
values. -/
theorem luaRequire_results_on_top_witness :
    (LuaValue.str "module.lua").tolstring exampleInterp = some "module.lua" ∧
    exampleHost.getResourceStream "module.lua" = some "" ∧
    exampleHost.loadbuffer "" ("@" ++ "module.lua") = .ok 0 ∧
    exampleInterp.call (.closure 0 .nil) [] []
      = (.ok [.str "exports", .boolean true], []) ∧
    ∃ st1 : LuaState,
      luaRequire exampleHost exampleInterp .nil
          { stack := [.str "module.lua", .number 7], heap := [], log := [] }
        = .done (([.str "exports", .boolean true] : List LuaValue).length : Int) st1 ∧
      st1.stack = ((LuaValue.str "module.lua").afterTolstring exampleInterp :: [.number 7])
        ++ [.str "exports", .boolean true] ∧
      st1.heap = [] :=
  ⟨rfl, by decide, rfl, rfl,
    luaRequire_results_on_top exampleHost exampleInterp .nil (.str "module.lua") [.number 7]
      [] [] [] "module.lua" "" 0 [.str "exports", .boolean true] rfl (by decide) rfl rfl⟩


/-! ## Classes: properties -/

theorem stackPos_neg (s t : List LuaValue) (k : Nat) (hk : 0 < k) (hkt : k ≤ t.length) :
    stackPos (s ++ t) (-(k : Int)) = some (s.length + t.length - k) := by
  unfold stackPos
  have h1 : ¬ (0 < -(k : Int) ∧ -(k : Int) ≤ ((s ++ t).length : Int)) := by omega
  have h2 : -(k : Int) < 0 ∧ - -(k : Int) ≤ ((s ++ t).length : Int) := by
    rw [List.length_append]; omega
  rw [if_neg h1, if_pos h2]
  congr 1
  rw [List.length_append]
  omega

theorem getD_append_offset (s t : List LuaValue) (j : Nat) (d : LuaValue) :
    (s ++ t).getD (s.length + j) d = t.getD j d := by
  simp [List.getD_eq_getElem?_getD, List.getElem?_append_right]

theorem finishget_succ (I : Interp) (loop : Nat) (t key : LuaValue) (st : LuaState) :
    finishget I (loop + 1) t key st =
      match metamethod I st.heap t "__index" with
      | none =>
        match t with
        | .table _ => .done .nil st
        | v => .raised (I.typeError v) st
      | some tm =>
        if tm.isFunction then callTM I tm [t, key] st
        else
          match tm with
          | .table r =>
            if rawget st.heap r key = .nil then finishget I loop tm key st
            else .done (rawget st.heap r key) st
          | _ => finishget I loop tm key st := rfl

theorem finishset_succ (I : Interp) (loop : Nat) (t key value : LuaValue) (st : LuaState) :
    finishset I (loop + 1) t key value st =
      match metamethod I st.heap t "__newindex" with
      | none =>
        match t with
        | .table r => rawsetChecked r key value st
        | v => .raised (I.typeError v) st
      | some tm =>
        if tm.isFunction then
          match callTM I tm [t, key, value] st with
          | .done _ st1 => .done () st1
          | .raised e st1 => .raised e st1
          | .violation => .violation
        else
          match tm with
          | .table r =>
            if rawget st.heap r key = .nil then finishset I loop tm key value st
            else .done () { st with heap := rawset st.heap r key value }
          | _ => finishset I loop tm key value st := rfl

/-- The metamethod of a table whose metatable does not define the event. -/
theorem metamethod_table_unset (I : Interp) (heap : List LuaTable) (r : Nat) (mt : Option Nat)
    (event : String) (hmt : heap[r]?.map (fun t => t.metatable) = some mt)
    (hunset : ∀ m, mt = some m → rawget heap m (.str event) = .nil) :
    metamethod I heap (.table r) event = none := by
  unfold metamethod
  cases hr : heap[r]? with
  | none => simp [hr] at hmt
  | some tr =>
    simp only [hr, Option.map_some', Option.some.injEq] at hmt
    simp only [hr, Option.some_bind, hmt]
    cases mt with
    | none => rfl
    | some m => simp [hunset m rfl]

/-- The metamethod of a table whose metatable defines the event. -/
theorem metamethod_table_set (I : Interp) (heap : List LuaTable) (r m : Nat) (event : String)
    (tm : LuaValue) (hmt : heap[r]?.map (fun t => t.metatable) = some (some m))
    (hset : rawget heap m (.str event) = tm) (hne : tm ≠ .nil) :
    metamethod I heap (.table r) event = some tm := by
  unfold metamethod
  cases hr : heap[r]? with
  | none => simp [hr] at hmt
  | some tr =>
    simp only [hr, Option.map_some', Option.some.injEq] at hmt
    simp only [hr, Option.some_bind, hmt, hset, hne, if_false]

/-- Field lookup on an instance falls back to the class table. -/
theorem gettable_instance (I : Interp) (st : LuaState) (c m o i : Nat) (key : LuaValue)
    (hc : IsClass st.heap c m o) (hi : IsInstance st.heap o i) :
    gettable I (.table i) key st = .done (instanceLookup st.heap c i key) st := by
  obtain ⟨hcm, hmm, hom, hmidx, hoidx, honew⟩ := hc
  unfold gettable instanceLookup
  simp only
  by_cases hraw : rawget st.heap i key = .nil
  · rw [if_pos hraw, if_pos hraw]
    show finishget I (1999 + 1) (.table i) key st = _
    rw [finishget_succ, metamethod_table_set I st.heap i o "__index" (.table c) hi hoidx
      (by simp)]
    simp only [LuaValue.isFunction, Bool.false_eq_true, if_false]
    by_cases hcraw : rawget st.heap c key = .nil
    · rw [if_pos hcraw]
      show finishget I (1998 + 1) (.table c) key st = _
      rw [finishget_succ, metamethod_table_unset I st.heap c (some m) "__index" hcm
        (by intro m1 h1; cases h1; exact hmidx), hcraw]
    · rw [if_neg hcraw]
  · rw [if_neg hraw, if_neg hraw]

/-- Assignment to a field of an instance is a raw store into that instance. -/
theorem settable_instance (I : Interp) (st : LuaState) (c m o i : Nat) (key value : LuaValue)
    (hc : IsClass st.heap c m o) (hi : IsInstance st.heap o i) (hkey : key ≠ .nil) :
    settable I (.table i) key value st
      = .done () { st with heap := rawset st.heap i key value } := by
  obtain ⟨hcm, hmm, hom, hmidx, hoidx, honew⟩ := hc
  unfold settable
  simp only
  by_cases hraw : rawget st.heap i key = .nil
  · rw [if_pos hraw]
    show finishset I (1999 + 1) (.table i) key value st = _
    rw [finishset_succ, metamethod_table_unset I st.heap i (some o) "__newindex" hi
      (by intro m1 h1; cases h1; exact honew)]
    simp only [rawsetChecked, hkey, if_false]
  · rw [if_neg hraw]

theorem rawset_getElem?_ne (heap : List LuaTable) (i j : Nat) (key value : LuaValue)
    (hij : i ≠ j) : (rawset heap i key value)[j]? = heap[j]? := by
  unfold rawset
  cases heap[i]? with
  | none => rfl
  | some t => simp only [List.getElem?_set_ne hij]

theorem rawset_metatable (heap : List LuaTable) (i j : Nat) (key value : LuaValue) :
    (rawset heap i key value)[j]?.map (fun t => t.metatable)
      = heap[j]?.map (fun t => t.metatable) := by
  by_cases hij : i = j
  · subst hij
    unfold rawset
    cases hi : heap[i]? with
    | none => simp [hi]
    | some t =>
      have hlt : i < heap.length := by
        rcases List.getElem?_eq_some_iff.mp hi with ⟨h, _⟩
        exact h
      simp [List.getElem?_set_self hlt, LuaTable.rawset]
  · rw [rawset_getElem?_ne heap i j key value hij]

theorem rawget_rawset_ne (heap : List LuaTable) (i j : Nat) (key value key1 : LuaValue)
    (hij : i ≠ j) : rawget (rawset heap i key value) j key1 = rawget heap j key1 := by
  unfold rawget
  rw [rawset_getElem?_ne heap i j key value hij]

/-- An instance is a different table from the class table and the two metatables. -/
theorem instance_ne_class (heap : List LuaTable) (c m o i : Nat)
    (hc : IsClass heap c m o) (hi : IsInstance heap o i) : i ≠ c ∧ i ≠ m ∧ i ≠ o := by
  obtain ⟨hcm, hmm, hom, hmidx, hoidx, honew⟩ := hc
  refine ⟨?_, ?_, ?_⟩
  · intro h
    subst h
    rw [hi] at hcm
    simp only [Option.some.injEq] at hcm
    subst hcm
    rw [hmidx] at hoidx
    cases hoidx
  · intro h
    subst h
    rw [hi] at hmm
    simp at hmm
  · intro h
    subst h
    rw [hi] at hom
    simp at hom

/-- Storing into an instance leaves the class arrangement in place. -/
theorem IsClass_rawset (heap : List LuaTable) (c m o i : Nat) (key value : LuaValue)
    (hc : IsClass heap c m o) (hi : IsInstance heap o i) :
    IsClass (rawset heap i key value) c m o := by
  obtain ⟨hic, him, hio⟩ := instance_ne_class heap c m o i hc hi
  obtain ⟨hcm, hmm, hom, hmidx, hoidx, honew⟩ := hc
  refine ⟨?_, ?_, ?_, ?_, ?_, ?_⟩
  · rw [rawset_metatable]; exact hcm
  · rw [rawset_metatable]; exact hmm
  · rw [rawset_metatable]; exact hom
  · rw [rawget_rawset_ne _ _ _ _ _ _ him]; exact hmidx
  · rw [rawget_rawset_ne _ _ _ _ _ _ hio]; exact hoidx
  · rw [rawget_rawset_ne _ _ _ _ _ _ hio]; exact honew

theorem getElem?_append_valid (heap : List LuaTable) (t : LuaTable) (j : Nat) (x : Option Nat)
    (hj : heap[j]?.map (fun t => t.metatable) = some x) : (heap ++ [t])[j]? = heap[j]? := by
  have hlt : j < heap.length := by
    cases hg : heap[j]? with
    | none => simp [hg] at hj
    | some tj =>
      rcases List.getElem?_eq_some_iff.mp hg with ⟨h, _⟩
      exact h
  exact List.getElem?_append_left hlt

theorem rawget_append_valid (heap : List LuaTable) (t : LuaTable) (j : Nat) (x : Option Nat)
    (key : LuaValue) (hj : heap[j]?.map (fun t => t.metatable) = some x) :
    rawget (heap ++ [t]) j key = rawget heap j key := by
  unfold rawget
  rw [getElem?_append_valid heap t j x hj]

/-- Allocating a table leaves the class arrangement in place. -/
theorem IsClass_append (heap : List LuaTable) (t : LuaTable) (c m o : Nat)
    (hc : IsClass heap c m o) : IsClass (heap ++ [t]) c m o := by
  obtain ⟨hcm, hmm, hom, hmidx, hoidx, honew⟩ := hc
  refine ⟨?_, ?_, ?_, ?_, ?_, ?_⟩
  · rw [getElem?_append_valid heap t c _ hcm]; exact hcm
  · rw [getElem?_append_valid heap t m _ hmm]; exact hmm
  · rw [getElem?_append_valid heap t o _ hom]; exact hom
  · rw [rawget_append_valid heap t m _ _ hmm]; exact hmidx
  · rw [rawget_append_valid heap t o _ _ hom]; exact hoidx
  · rw [rawget_append_valid heap t o _ _ hom]; exact honew

/-- A table reference that carries a metatable entry is below the allocation point. -/
theorem valid_ref_lt (heap : List LuaTable) (j : Nat) (x : Option Nat)
    (hj : heap[j]?.map (fun t => t.metatable) = some x) : j < heap.length := by
  cases hg : heap[j]? with
  | none => simp [hg] at hj
  | some tj =>
    rcases List.getElem?_eq_some_iff.mp hg with ⟨h, _⟩
    exact h

/-- Lines 84-86 of `luaCreateObjectFunc`. -/
theorem createObjectAlloc_eq (o : Nat) (st : LuaState) :
    createObjectAlloc (.table o) st
      = .done ()
          { stack := st.stack ++ [.table st.heap.length],
            heap := st.heap ++ [{ fields := [], metatable := some o }],
            log := st.log } := by
  have hpos := stackPos_neg st.stack [.table st.heap.length, .table o] 2 (by decide) (by simp)
  simp only [List.length_cons, List.length_nil] at hpos
  have hpos' : stackPos (st.stack ++ [.table st.heap.length, .table o]) (-2)
      = some st.stack.length := by
    have : (-(2 : Nat) : Int) = -2 := rfl
    rw [← this, hpos]
    congr 1
  simp only [createObjectAlloc, LuaM.bind_apply, lua_newtable, lua_push, lua_setmetatable,
    List.append_assoc, List.singleton_append, hpos']
  have hget : (st.stack ++ [LuaValue.table st.heap.length, LuaValue.table o]).getD
      st.stack.length .nil = .table st.heap.length := by
    have := getD_append_offset st.stack [LuaValue.table st.heap.length, LuaValue.table o] 0 .nil
    simpa using this
  have hlast : (st.stack ++ [LuaValue.table st.heap.length, LuaValue.table o]).getLast?
      = some (.table o) := by simp
  simp only [hget, hlast]
  simp [lua_pop, List.take_append_eq_append_take]

/-- A freshly allocated table has no entries. -/
theorem rawget_fresh (heap : List LuaTable) (mt : Option Nat) (key : LuaValue) :
    rawget (heap ++ [{ fields := [], metatable := mt }]) heap.length key = .nil := by
  unfold rawget
  simp [LuaTable.rawget]

theorem IsInstance_fresh (heap : List LuaTable) (o : Nat) :
    IsInstance (heap ++ [{ fields := [], metatable := some o }]) o heap.length := by
  simp [IsInstance]

/-- The whole of `luaCreateObjectFunc` for the instance metatable of a class. -/
theorem luaCreateObjectFunc_eq (I : Interp) (st : LuaState) (c m o : Nat)
    (hc : IsClass st.heap c m o) :
    luaCreateObjectFunc I (.table o) st =
      if (rawget st.heap c (.str "__init__")).isFunction then
        match I.call (rawget st.heap c (.str "__init__")) [.table st.heap.length]
            (st.heap ++ [{ fields := [], metatable := some o }]) with
        | (.ok _, h) =>
          .done 1 { stack := st.stack ++ [.table st.heap.length], heap := h,
                    log := st.log ++ [.call] }
        | (.error e, h) =>
          .raised e { stack := st.stack ++ [.table st.heap.length], heap := h,
                      log := st.log ++ [.call, .raise] }
      else
        .done 1 { stack := st.stack ++ [.table st.heap.length],
                  heap := st.heap ++ [{ fields := [], metatable := some o }],
                  log := st.log } := by
  have hc1 := IsClass_append st.heap { fields := [], metatable := some o } c m o hc
  have hi1 := IsInstance_fresh st.heap o
  have hlook : ∀ s l, gettable I (.table st.heap.length) (.str "__init__")
      { stack := s, heap := st.heap ++ [{ fields := [], metatable := some o }], log := l }
      = .done (rawget st.heap c (.str "__init__"))
          { stack := s, heap := st.heap ++ [{ fields := [], metatable := some o }], log := l } := by
    intro s l
    rw [gettable_instance I _ c m o st.heap.length (.str "__init__") hc1 hi1]
    simp only [instanceLookup, rawget_fresh, if_true]
    rw [rawget_append_valid st.heap _ c _ _ hc.1]
  simp only [luaCreateObjectFunc, LuaM.bind_apply, createObjectAlloc_eq, lua_getfield,
    stackPos_top, List.getD_eq_getElem?_getD, List.getElem?_concat_length, Option.getD_some,
    hlook, lua_push, lua_isfunction, stackGet_top]
  by_cases hf : (rawget st.heap c (.str "__init__")).isFunction = true
  · simp only [hf, if_true, LuaM.bind_apply, lua_pushvalue]
    have hpos := stackPos_neg st.stack
      [.table st.heap.length, rawget st.heap c (.str "__init__")] 2 (by decide) (by simp)
    have hpos' : stackPos (st.stack ++ [.table st.heap.length] ++
        [rawget st.heap c (.str "__init__")]) (-2) = some st.stack.length := by
      have : (-(2 : Nat) : Int) = -2 := rfl
      rw [List.append_assoc, ← this]
      simpa using hpos
    have hget : (st.stack ++ [LuaValue.table st.heap.length] ++
        [rawget st.heap c (.str "__init__")]).getD st.stack.length .nil
        = .table st.heap.length := by
      have := getD_append_offset st.stack
        [LuaValue.table st.heap.length, rawget st.heap c (.str "__init__")] 0 .nil
      simpa using this
    simp only [hpos', hget, lua_push, lua_call]
    have hlen : ¬ ((st.stack ++ [LuaValue.table st.heap.length] ++
        [rawget st.heap c (.str "__init__")] ++ [LuaValue.table st.heap.length]).length < 1 + 1) := by
      simp
    have hbase : (st.stack ++ [LuaValue.table st.heap.length] ++
        [rawget st.heap c (.str "__init__")] ++ [LuaValue.table st.heap.length]).length - (1 + 1)
        = st.stack.length + 1 := by
      simp
    simp only [hlen, if_false, hbase]
    have hf1 : (st.stack ++ [LuaValue.table st.heap.length] ++
        [rawget st.heap c (.str "__init__")] ++ [LuaValue.table st.heap.length]).getD
        (st.stack.length + 1) .nil = rawget st.heap c (.str "__init__") := by
      have := getD_append_offset st.stack
        [LuaValue.table st.heap.length, rawget st.heap c (.str "__init__"),
          LuaValue.table st.heap.length] 1 .nil
      simpa using this
    have hargs : (st.stack ++ [LuaValue.table st.heap.length] ++
        [rawget st.heap c (.str "__init__")] ++ [LuaValue.table st.heap.length]).drop
        (st.stack.length + 1 + 1) = [.table st.heap.length] := by
      have := @List.drop_append _ st.stack [LuaValue.table st.heap.length,
        rawget st.heap c (.str "__init__"), LuaValue.table st.heap.length] 2
      simp [Nat.add_assoc] at this ⊢
    have htake : (st.stack ++ [LuaValue.table st.heap.length] ++
        [rawget st.heap c (.str "__init__")] ++ [LuaValue.table st.heap.length]).take
        (st.stack.length + 1) = st.stack ++ [.table st.heap.length] := by
      simp [List.take_append_eq_append_take]
    simp only [hf1, hargs, htake]
    generalize I.call (rawget st.heap c (.str "__init__")) [.table st.heap.length]
        (st.heap ++ [{ fields := [], metatable := some o }]) = res
    rcases res with ⟨r, h⟩
    cases r with
    | ok rs => rfl
    | error e => simp
  · simp only [hf, Bool.false_eq_true, if_false, LuaM.bind_apply, lua_pop]
    simp [List.take_append_eq_append_take]

/-- Assignment to a field of a table that has no metatable is a raw store. -/
theorem settable_plain (I : Interp) (st : LuaState) (r : Nat) (key value : LuaValue)
    (hmt : st.heap[r]?.map (fun t => t.metatable) = some none) (hkey : key ≠ .nil) :
    settable I (.table r) key value st
      = .done () { st with heap := rawset st.heap r key value } := by
  unfold settable
  simp only
  by_cases hraw : rawget st.heap r key = .nil
  · rw [if_pos hraw]
    show finishset I (1999 + 1) (.table r) key value st = _
    rw [finishset_succ, metamethod_table_unset I st.heap r none "__newindex" hmt
      (by intro m1 h1; cases h1)]
    simp only [rawsetChecked, hkey, if_false]
  · rw [if_neg hraw]

theorem heap3_get0 (h : List LuaTable) (a b c : LuaTable) :
    (h ++ [a, b, c])[h.length]? = some a := by
  rw [List.getElem?_append_right (Nat.le_refl _)]
  simp

theorem heap3_get1 (h : List LuaTable) (a b c : LuaTable) :
    (h ++ [a, b, c])[h.length + 1]? = some b := by
  rw [List.getElem?_append_right (Nat.le_add_right _ _)]
  simp

theorem heap3_get2 (h : List LuaTable) (a b c : LuaTable) :
    (h ++ [a, b, c])[h.length + 2]? = some c := by
  rw [List.getElem?_append_right (Nat.le_add_right _ _)]
  simp

theorem heap3_set0 (h : List LuaTable) (a b c x : LuaTable) :
    (h ++ [a, b, c]).set h.length x = h ++ [x, b, c] := by
  simp [List.set_append]

theorem heap3_set1 (h : List LuaTable) (a b c x : LuaTable) :
    (h ++ [a, b, c]).set (h.length + 1) x = h ++ [a, x, c] := by
  simp [List.set_append]

theorem heap3_set2 (h : List LuaTable) (a b c x : LuaTable) :
    (h ++ [a, b, c]).set (h.length + 2) x = h ++ [a, b, x] := by
  simp [List.set_append]

theorem LuaM.bind_done {α β : Type} (m : LuaM α) (f : α → LuaM β) (st st1 : LuaState) (a : α)
    (h : m st = .done a st1) : (m >>= f) st = f a st1 := by
  rw [LuaM.bind_apply, h]

theorem lua_pushvalue_eq (s : List LuaValue) (h : List LuaTable) (l : List HostEvent)
    (idx : Int) (i : Nat) (hpos : stackPos s idx = some i) :
    lua_pushvalue idx { stack := s, heap := h, log := l }
      = .done () { stack := s ++ [s.getD i .nil], heap := h, log := l } := by
  simp only [lua_pushvalue, hpos, lua_push]

theorem lua_pop_one (s : List LuaValue) (v : LuaValue) (h : List LuaTable)
    (l : List HostEvent) :
    lua_pop 1 { stack := s ++ [v], heap := h, log := l }
      = .done () { stack := s, heap := h, log := l } := by
  simp [lua_pop]

theorem lua_setfield_plain (I : Interp) (s : List LuaValue) (v : LuaValue) (h : List LuaTable)
    (l : List HostEvent) (idx : Int) (i r : Nat) (k : String)
    (hpos : stackPos (s ++ [v]) idx = some i) (hget : (s ++ [v]).getD i .nil = .table r)
    (hmt : h[r]?.map (fun t => t.metatable) = some none) :
    lua_setfield I idx k { stack := s ++ [v], heap := h, log := l }
      = .done () { stack := s, heap := rawset h r (.str k) v, log := l } := by
  have hlast : (s ++ [v]).getLast? = some v := by simp
  simp only [lua_setfield, hpos, hlast, hget]
  rw [settable_plain I (LuaState.mk (s ++ [v]) h l) r (LuaValue.str k) v hmt (by simp)]
  exact lua_pop_one _ _ _ _

theorem lua_pushcclosure_eq (fn : CFunction) (s : List LuaValue) (v : LuaValue)
    (h : List LuaTable) (l : List HostEvent) :
    lua_pushcclosure fn { stack := s ++ [v], heap := h, log := l }
      = .done () { stack := s ++ [.cclosure fn v], heap := h, log := l } := by
  simp [lua_pushcclosure]

theorem lua_setmetatable_eq (s : List LuaValue) (mt : Nat) (h : List LuaTable)
    (l : List HostEvent) (idx : Int) (i r : Nat) (o : LuaTable)
    (hpos : stackPos (s ++ [LuaValue.table mt]) idx = some i)
    (hget : (s ++ [LuaValue.table mt]).getD i .nil = .table r) (hr : h[r]? = some o) :
    lua_setmetatable idx { stack := s ++ [.table mt], heap := h, log := l }
      = .done () { stack := s, heap := h.set r { o with metatable := some mt }, log := l } := by
  have hlast : (s ++ [LuaValue.table mt]).getLast? = some (.table mt) := by simp
  unfold lua_setmetatable
  simp only [hpos, hlast]
  rw [hget]
  simp only [hr]
  exact lua_pop_one _ _ _ _

theorem stackPos_neg2 (s : List LuaValue) (a b : LuaValue) :
    stackPos (s ++ [a] ++ [b]) (-2) = some s.length := by
  have := stackPos_neg s [a, b] 2 (by decide) (by simp)
  simpa using this

theorem stackPos_neg2_of3 (s : List LuaValue) (a b c : LuaValue) :
    stackPos (s ++ [a] ++ [b] ++ [c]) (-2) = some (s.length + 1) := by
  have := stackPos_neg s [a, b, c] 2 (by decide) (by simp)
  simpa using this

theorem stackPos_neg2_of4 (s : List LuaValue) (a b c d : LuaValue) :
    stackPos (s ++ [a] ++ [b] ++ [c] ++ [d]) (-2) = some (s.length + 2) := by
  have := stackPos_neg s [a, b, c, d] 2 (by decide) (by simp)
  simpa using this

theorem stackPos_neg3_of3 (s : List LuaValue) (a b c : LuaValue) :
    stackPos (s ++ [a] ++ [b] ++ [c]) (-3) = some s.length := by
  have := stackPos_neg s [a, b, c] 3 (by decide) (by simp)
  simpa using this

/-- The whole of `luaCreateClass`: three tables are allocated, the class table stays
on the stack. -/
theorem luaCreateClass_eq (I : Interp) (st : LuaState) :
    luaCreateClass I st
      = .done 1
          { stack := st.stack ++ [.table st.heap.length],
            heap := st.heap ++
              [{ fields := [], metatable := some (st.heap.length + 1) },
               { fields := [(.str "__call",
                   .cclosure .luaCreateObjectFunc (.table (st.heap.length + 2)))],
                 metatable := none },
               { fields := [(.str "__index", .table st.heap.length)], metatable := none }],
            log := st.log } := by
  obtain ⟨s, h, l⟩ := st
  simp only
  have n1 : lua_newtable (LuaState.mk s h l)
      = .done () (LuaState.mk (s ++ [.table h.length])
          (h ++ [{ fields := [], metatable := none }]) l) := rfl
  have n2 : lua_newtable (LuaState.mk (s ++ [.table h.length])
        (h ++ [{ fields := [], metatable := none }]) l)
      = .done () (LuaState.mk (s ++ [.table h.length] ++ [.table (h.length + 1)])
          (h ++ [{ fields := [], metatable := none }, { fields := [], metatable := none }]) l) := by
    simp [lua_newtable]
  have n3 : lua_newtable (LuaState.mk (s ++ [.table h.length] ++ [.table (h.length + 1)])
        (h ++ [{ fields := [], metatable := none }, { fields := [], metatable := none }]) l)
      = .done () (LuaState.mk
          (s ++ [.table h.length] ++ [.table (h.length + 1)] ++ [.table (h.length + 2)])
          (h ++ [{ fields := [], metatable := none }, { fields := [], metatable := none },
            { fields := [], metatable := none }]) l) := by
    simp [lua_newtable]
  have g0 : ∀ (a b c : LuaValue) (rest : List LuaValue),
      (s ++ [a] ++ [b] ++ [c] ++ rest).getD s.length .nil = a := by
    intro a b c rest
    have := getD_append_offset s ([a, b, c] ++ rest) 0 .nil
    simpa using this
  have g1 : ∀ (a b c : LuaValue),
      (s ++ [a] ++ [b] ++ [c]).getD (s.length + 1) .nil = b := by
    intro a b c
    have := getD_append_offset s [a, b, c] 1 .nil
    simpa using this
  have g2 : ∀ (a b c d : LuaValue),
      (s ++ [a] ++ [b] ++ [c] ++ [d]).getD (s.length + 2) .nil = c := by
    intro a b c d
    have := getD_append_offset s [a, b, c, d] 2 .nil
    simpa using this
  have p4 := lua_pushvalue_eq (s ++ [.table h.length] ++ [.table (h.length + 1)]
      ++ [.table (h.length + 2)])
    (h ++ [{ fields := [], metatable := none }, { fields := [], metatable := none },
      { fields := [], metatable := none }]) l (-3) s.length (stackPos_neg3_of3 _ _ _ _)
  rw [show (s ++ [LuaValue.table h.length] ++ [LuaValue.table (h.length + 1)]
      ++ [LuaValue.table (h.length + 2)]).getD s.length .nil = .table h.length from
      by simpa using g0 (.table h.length) (.table (h.length + 1)) (.table (h.length + 2)) []] at p4
  have p5 := lua_setfield_plain I (s ++ [.table h.length] ++ [.table (h.length + 1)]
      ++ [.table (h.length + 2)]) (.table h.length)
    (h ++ [{ fields := [], metatable := none }, { fields := [], metatable := none },
      { fields := [], metatable := none }]) l (-2) (s.length + 2) (h.length + 2) "__index"
    (stackPos_neg2_of4 _ _ _ _ _) (g2 _ _ _ _) (by rw [heap3_get2]; rfl)
  have r5 : rawset (h ++ [{ fields := [], metatable := none },
      { fields := [], metatable := none }, { fields := [], metatable := none }])
      (h.length + 2) (.str "__index") (.table h.length)
      = h ++ [{ fields := [], metatable := none }, { fields := [], metatable := none },
          { fields := [(.str "__index", .table h.length)], metatable := none }] := by
    simp only [rawset, heap3_get2, heap3_set2]
    simp [LuaTable.rawset]
  rw [r5] at p5
  have p6 := lua_pushcclosure_eq .luaCreateObjectFunc
    (s ++ [.table h.length] ++ [.table (h.length + 1)]) (.table (h.length + 2))
    (h ++ [{ fields := [], metatable := none }, { fields := [], metatable := none },
      { fields := [(.str "__index", .table h.length)], metatable := none }]) l
  have p7 := lua_setfield_plain I (s ++ [.table h.length] ++ [.table (h.length + 1)])
    (.cclosure .luaCreateObjectFunc (.table (h.length + 2)))
    (h ++ [{ fields := [], metatable := none }, { fields := [], metatable := none },
      { fields := [(.str "__index", .table h.length)], metatable := none }]) l (-2)
    (s.length + 1) (h.length + 1) "__call"
    (stackPos_neg2_of3 _ _ _ _) (g1 _ _ _) (by rw [heap3_get1]; rfl)
  have r7 : rawset (h ++ [{ fields := [], metatable := none },
      { fields := [], metatable := none },
      { fields := [(.str "__index", .table h.length)], metatable := none }])
      (h.length + 1) (.str "__call") (.cclosure .luaCreateObjectFunc (.table (h.length + 2)))
      = h ++ [{ fields := [], metatable := none },
          { fields := [(.str "__call",
              .cclosure .luaCreateObjectFunc (.table (h.length + 2)))], metatable := none },
          { fields := [(.str "__index", .table h.length)], metatable := none }] := by
    simp only [rawset, heap3_get1, heap3_set1]
    simp [LuaTable.rawset]
  rw [r7] at p7
  have g8 : (s ++ [LuaValue.table h.length] ++ [LuaValue.table (h.length + 1)]).getD
      s.length .nil = .table h.length := by
    have := getD_append_offset s [LuaValue.table h.length, .table (h.length + 1)] 0 .nil
    simpa using this
  have p8 := lua_setmetatable_eq (s ++ [.table h.length]) (h.length + 1)
    (h ++ [{ fields := [], metatable := none },
      { fields := [(.str "__call",
          .cclosure .luaCreateObjectFunc (.table (h.length + 2)))], metatable := none },
      { fields := [(.str "__index", .table h.length)], metatable := none }]) l (-2)
    s.length h.length { fields := [], metatable := none }
    (stackPos_neg2 _ _ _) g8 (heap3_get0 _ _ _ _)
  rw [heap3_set0] at p8
  unfold luaCreateClass
  rw [LuaM.bind_done _ _ _ _ _ n1, LuaM.bind_done _ _ _ _ _ n2, LuaM.bind_done _ _ _ _ _ n3,
    LuaM.bind_done _ _ _ _ _ p4, LuaM.bind_done _ _ _ _ _ p5, LuaM.bind_done _ _ _ _ _ p6,
    LuaM.bind_done _ _ _ _ _ p7, LuaM.bind_done _ _ _ _ _ p8]
  rfl

/-- The heap `luaCreateClass` leaves satisfies the class arrangement. -/
theorem IsClass_created (h : List LuaTable) :
    IsClass (h ++
      [{ fields := [], metatable := some (h.length + 1) },
       { fields := [(.str "__call",
           .cclosure .luaCreateObjectFunc (.table (h.length + 2)))], metatable := none },
       { fields := [(.str "__index", .table h.length)], metatable := none }])
      h.length (h.length + 1) (h.length + 2) := by
  refine ⟨?_, ?_, ?_, ?_, ?_, ?_⟩
  · rw [heap3_get0]; rfl
  · rw [heap3_get1]; rfl
  · rw [heap3_get2]; rfl
  · have hne : (LuaValue.str "__index" == LuaValue.str "__call") = false := by decide
    simp only [rawget, heap3_get1]
    simp [LuaTable.rawget, List.lookup, hne]
  · simp only [rawget, heap3_get2]
    simp [LuaTable.rawget, List.lookup]
  · have hne : (LuaValue.str "__newindex" == LuaValue.str "__index") = false := by decide
    simp only [rawget, heap3_get2]
    simp [LuaTable.rawget, List.lookup, hne]

/-- C9. For every class table produced by `luaCreateClass`: the class table `c` gets
a metatable whose `__call` is `luaCreateObjectFunc` closed over a table `o` with
`o.__index = c`. Each call of the class (`luaCreateObjectFunc`) allocates a fresh
instance table, distinct from the class table and from every earlier instance, with
metatable `o`, so that its field lookups fall back to the class table; it returns
that instance (after calling `__init__` on it when the class defines one).
Consequently, setting a field on one instance is a raw store into that instance: it
changes neither the class table nor the result of any field lookup on another
instance of the same class. -/
theorem createClass_independence (I : Interp) :
    (∀ st : LuaState, ∃ st1 : LuaState,
      luaCreateClass I st = .done 1 st1 ∧
      st1.stack = st.stack ++ [.table st.heap.length] ∧
      st1.heap.take st.heap.length = st.heap ∧
      st1.log = st.log ∧
      IsClass st1.heap st.heap.length (st.heap.length + 1) (st.heap.length + 2) ∧
      rawget st1.heap (st.heap.length + 1) (.str "__call")
        = .cclosure .luaCreateObjectFunc (.table (st.heap.length + 2))) ∧
    (∀ (st : LuaState) (c m o : Nat), IsClass st.heap c m o →
      createObjectAlloc (.table o) st
        = .done ()
            { stack := st.stack ++ [.table st.heap.length],
              heap := st.heap ++ [{ fields := [], metatable := some o }],
              log := st.log } ∧
      st.heap.length ≠ c ∧
      (∀ j, IsInstance st.heap o j → st.heap.length ≠ j) ∧
      IsClass (st.heap ++ [{ fields := [], metatable := some o }]) c m o ∧
      IsInstance (st.heap ++ [{ fields := [], metatable := some o }]) o st.heap.length ∧
      (∀ j, IsInstance st.heap o j →
        IsInstance (st.heap ++ [{ fields := [], metatable := some o }]) o j) ∧
      (∀ (key : LuaValue) (s : List LuaValue) (l : List HostEvent),
        gettable I (.table st.heap.length) key
            { stack := s, heap := st.heap ++ [{ fields := [], metatable := some o }], log := l }
          = .done (rawget st.heap c key)
              { stack := s, heap := st.heap ++ [{ fields := [], metatable := some o }],
                log := l }) ∧
      luaCreateObjectFunc I (.table o) st =
        if (rawget st.heap c (.str "__init__")).isFunction then
          match I.call (rawget st.heap c (.str "__init__")) [.table st.heap.length]
              (st.heap ++ [{ fields := [], metatable := some o }]) with
          | (.ok _, h) =>
            .done 1 { stack := st.stack ++ [.table st.heap.length], heap := h,
                      log := st.log ++ [.call] }
          | (.error e, h) =>
            .raised e { stack := st.stack ++ [.table st.heap.length], heap := h,
                        log := st.log ++ [.call, .raise] }
        else
          .done 1 { stack := st.stack ++ [.table st.heap.length],
                    heap := st.heap ++ [{ fields := [], metatable := some o }],
                    log := st.log }) ∧
    (∀ (st : LuaState) (c m o i j : Nat) (key value : LuaValue),
      IsClass st.heap c m o → IsInstance st.heap o i → IsInstance st.heap o j → i ≠ j →
      key ≠ .nil →
      settable I (.table i) key value st
        = .done () { st with heap := rawset st.heap i key value } ∧
      (rawset st.heap i key value)[c]? = st.heap[c]? ∧
      IsClass (rawset st.heap i key value) c m o ∧
      IsInstance (rawset st.heap i key value) o i ∧
      IsInstance (rawset st.heap i key value) o j ∧
      (∀ key1 : LuaValue,
        gettable I (.table j) key1 st = .done (instanceLookup st.heap c j key1) st ∧
        gettable I (.table j) key1 { st with heap := rawset st.heap i key value }
          = .done (instanceLookup st.heap c j key1)
              { st with heap := rawset st.heap i key value })) := by
  refine ⟨?_, ?_, ?_⟩
  · intro st
    refine ⟨_, luaCreateClass_eq I st, rfl, ?_, rfl, IsClass_created st.heap, ?_⟩
    · simp
    · simp only [rawget, heap3_get1]
      simp [LuaTable.rawget, List.lookup]
  · intro st c m o hc
    have hc1 := IsClass_append st.heap { fields := [], metatable := some o } c m o hc
    have hi1 := IsInstance_fresh st.heap o
    refine ⟨createObjectAlloc_eq o st, ?_, ?_, hc1, hi1, ?_, ?_, luaCreateObjectFunc_eq I st c m o hc⟩
    · have := valid_ref_lt st.heap c _ hc.1
      omega
    · intro j hj
      have := valid_ref_lt st.heap j _ hj
      omega
    · intro j hj
      show (st.heap ++ [_])[j]?.map _ = _
      rw [getElem?_append_valid st.heap _ j _ hj]
      exact hj
    · intro key s l
      rw [gettable_instance I _ c m o st.heap.length key hc1 hi1]
      simp only [instanceLookup, rawget_fresh, if_true]
      rw [rawget_append_valid st.heap _ c _ _ hc.1]
  · intro st c m o i j key value hc hi hj hij hkey
    obtain ⟨hic, him, hio⟩ := instance_ne_class st.heap c m o i hc hi
    have hc1 := IsClass_rawset st.heap c m o i key value hc hi
    have hi1 : IsInstance (rawset st.heap i key value) o i := by
      show (rawset st.heap i key value)[i]?.map _ = _
      rw [rawset_metatable]; exact hi
    have hj1 : IsInstance (rawset st.heap i key value) o j := by
      show (rawset st.heap i key value)[j]?.map _ = _
      rw [rawset_metatable]; exact hj
    refine ⟨settable_instance I st c m o i key value hc hi hkey,
      rawset_getElem?_ne st.heap i c key value hic, hc1, hi1, hj1, ?_⟩
    intro key1
    refine ⟨gettable_instance I st c m o j key1 hc hj, ?_⟩
    rw [gettable_instance I _ c m o j key1 hc1 hj1]
    simp only [instanceLookup, rawget_rawset_ne st.heap i j key value key1 hij,
      rawget_rawset_ne st.heap i c key value key1 hic]

/-- Witness for C9: the class of the example heap with its two instances, and a store
of the field "x" into the first instance. -/
theorem createClass_independence_witness :
    IsClass exampleClassHeap 0 1 2 ∧
    IsInstance exampleClassHeap 2 3 ∧
    IsInstance exampleClassHeap 2 4 ∧
    settable exampleInterp (.table 3) (.str "x") (.number 1)
        { stack := [], heap := exampleClassHeap, log := [] }
      = .done () { stack := [], log := [],
                   heap := rawset exampleClassHeap 3 (.str "x") (.number 1) } ∧
    (rawset exampleClassHeap 3 (.str "x") (.number 1))[0]? = exampleClassHeap[0]? ∧
    exampleClassHeap.length ≠ 0 :=
  ⟨by decide, by decide, by decide,
    ((createClass_independence exampleInterp).2.2
      { stack := [], heap := exampleClassHeap, log := [] } 0 1 2 3 4 (.str "x") (.number 1)
      (by decide) (by decide) (by decide) (by decide) (by decide)).1,
    ((createClass_independence exampleInterp).2.2
      { stack := [], heap := exampleClassHeap, log := [] } 0 1 2 3 4 (.str "x") (.number 1)
      (by decide) (by decide) (by decide) (by decide) (by decide)).2.1,
    ((createClass_independence exampleInterp).2.1
      { stack := [], heap := exampleClassHeap, log := [] } 0 1 2 (by decide)).2.1⟩


end EmptyEpsilon
